import Mathlib

/-!
Verification development for RetroArch's `core_updater_list.c`.

Shallow embedding conventions:
* C strings are modelled as `List Char` holding the characters before the
  terminating NUL; a NULL pointer and an empty string are both `[]`
  (matching `string_is_empty`, which treats them identically).  By
  construction such lists never contain an interior `'\x00'`.
* The growable `RBUF` array is a `List` plus an explicit capacity, and every
  fallible heap allocation consults an explicit oracle (`List Bool`): each
  allocation attempt pops one entry, an exhausted (empty) oracle means every
  remaining allocation succeeds.
* The `licenses_list` field is a `string_list*` in C.  Its contents are never
  inspected by this file's code, only its identity matters (it is moved /
  aliased / freed), so it is modelled as an allocation identifier
  `Option Nat` (`none` = NULL).
* External collaborators declared out of scope by the module (path utilities,
  URL encoding, the core-info reader) are parameters collected in `PathEnv`.
* C `qsort` is modelled as a stable insertion sort with the same comparator;
  `qsort`'s order on tie-ing elements is unspecified in C, the model fixes
  the stable order.
-/

/-- ASCII `tolower` on a character code, as used by `strcasecmp`. -/
def lowerChar (c : Char) : Nat :=
  if 'A' ≤ c ∧ c ≤ 'Z' then c.toNat + 32 else c.toNat

/-- Model of libc `strcasecmp`: compare case-folded characters until the first
difference, the end of a string acting as character code 0. -/
def strcasecmp : List Char → List Char → Int
  | [], [] => 0
  | [], b :: _ => -(lowerChar b : Int)
  | a :: _, [] => (lowerChar a : Int)
  | a :: as, b :: bs =>
    if lowerChar a = lowerChar b then strcasecmp as bs
    else (lowerChar a : Int) - (lowerChar b : Int)

/-- Is `pat` a prefix of `s` (character-exact)? Helper for `strstrB`. -/
def isPrefixChars : List Char → List Char → Bool
  | [], _ => true
  | _ :: _, [] => false
  | a :: as, b :: bs => a == b && isPrefixChars as bs

/-- Model of libc `strstr hay pat ≠ NULL`: does `pat` occur as a contiguous
substring of `hay`?  An empty pattern is always found. -/
def strstrB : List Char → List Char → Bool
  | [], pat => pat.isEmpty
  | h :: t, pat => isPrefixChars pat (h :: t) || strstrB t pat

/-- Model of libretro-common `string_is_empty`: NULL or zero-length. -/
def string_is_empty (s : List Char) : Bool := s.isEmpty

/-- Count occurrences of one character
(`string_count_occurrences_single_character`). -/
def countCharOcc (c : Char) : List Char → Nat
  | [] => 0
  | d :: r => (if d = c then 1 else 0) + countCharOcc c r

/-- Model of repeated `strtok_r` with a single-character delimiter: the
maximal non-empty runs of non-delimiter characters, in order. -/
def strtokSplit (sep : Char) (s : List Char) : List (List Char) :=
  let r := s.foldr (fun c acc =>
    if c = sep then ((if acc.2.isEmpty then acc.1 else acc.2 :: acc.1), ([] : List Char))
    else (acc.1, c :: acc.2)) (([] : List (List Char)), ([] : List Char))
  if r.2.isEmpty then r.1 else r.2 :: r.1

/-- Split a list at its last occurrence of `c`: `(prefix, suffix)` with the
suffix starting at (and containing) that last occurrence; `none` when `c`
does not occur.  Models `strrchr` based suffix handling. -/
def splitAtLastChar (c : Char) : List Char → Option (List Char × List Char)
  | [] => none
  | d :: rest =>
    match splitAtLastChar c rest with
    | some (p, suf) => some (d :: p, suf)
    | none => if d = c then some ([], d :: rest) else none

/-- Modelled from the spec: `string_to_unsigned` (libretro-common
`string/stdstring.h`, not under src/) parses a decimal unsigned integer,
"failure yields 0". -/
def string_to_unsigned (s : List Char) : Nat :=
  if s ≠ [] ∧ s.all (fun c => c.isDigit) then
    s.foldl (fun acc c => acc * 10 + (c.toNat - 48)) 0
  else 0

/-- Hexadecimal digit value (0 for non-digits). -/
def hexDigitVal (c : Char) : Nat :=
  if '0' ≤ c ∧ c ≤ '9' then c.toNat - 48
  else if 'a' ≤ c ∧ c ≤ 'f' then c.toNat - 87
  else if 'A' ≤ c ∧ c ≤ 'F' then c.toNat - 55
  else 0

/-- Is `c` a hexadecimal digit? -/
def isHexDigitB (c : Char) : Bool :=
  ('0' ≤ c ∧ c ≤ '9') ∨ ('a' ≤ c ∧ c ≤ 'f') ∨ ('A' ≤ c ∧ c ≤ 'F')

/-- Modelled from the spec: `string_hex_to_unsigned` (libretro-common
`string/stdstring.h`, not under src/) parses a "hexadecimal unsigned 32-bit
integer", with "a parsed value of 0 (including parse failure)" mapping to 0. -/
def string_hex_to_unsigned (s : List Char) : Nat :=
  if s ≠ [] ∧ s.all isHexDigitB then
    (s.foldl (fun acc c => acc * 16 + hexDigitVal c) 0) % 4294967296
  else 0

/-- Model of `enum core_updater_list_type`. -/
inductive CoreUpdaterListType where
  | unknown
  | buildbot
  | pfd
deriving DecidableEq

/-- Model of `core_updater_list_date_t`. -/
structure CoreUpdaterListDate where
  year : Nat
  month : Nat
  day : Nat
deriving DecidableEq

/-- Model of `core_updater_list_entry_t`.  String fields are `List Char` (NULL and ""
both `[]`); `licenses_list` is the identity of the owned `string_list`
allocation (`none` = NULL). -/
structure CoreUpdaterListEntry where
  remote_filename : List Char
  remote_core_path : List Char
  local_core_path : List Char
  local_info_path : List Char
  display_name : List Char
  description : List Char
  licenses_list : Option Nat
  is_experimental : Bool
  is_manufacturer_header : Bool
  is_console_header : Bool
  crc : Nat
  date : CoreUpdaterListDate
deriving DecidableEq

/-- A zero-initialised entry (`core_updater_list_entry_t entry = {0}`). -/
def zeroEntry : CoreUpdaterListEntry :=
  { remote_filename := []
    remote_core_path := []
    local_core_path := []
    local_info_path := []
    display_name := []
    description := []
    licenses_list := none
    is_experimental := false
    is_manufacturer_header := false
    is_console_header := false
    crc := 0
    date := ⟨0, 0, 0⟩ }

/-- Model of `core_metadata_wizmodl_t`. -/
structure CoreMetadataWizmodl where
  core_name : Option (List Char)
  manufacturer : List Char
  console_model : List Char
  console_type : List Char
  release_year : Int
  manufacturer_priority : Int
  console_priority : Int
deriving DecidableEq

/-- The trailing fallback record of `core_metadata_wizmodl_db`. -/
def wizmodlFallback : CoreMetadataWizmodl :=
  ⟨none, "Unknown".toList, "Unknown System".toList, "unknown".toList, 9999, 999, 999⟩

set_option maxHeartbeats 1600000 in
/-- The static `core_metadata_wizmodl_db` table, transcribed row for row. -/
def core_metadata_wizmodl_db : List CoreMetadataWizmodl := [
  ⟨some ("Family Computer".toList), "Nintendo".toList, "Nintendo Entertainment System".toList, "home".toList, 1983, 1, 10⟩,
  ⟨some ("Famicom".toList), "Nintendo".toList, "Nintendo Entertainment System".toList, "home".toList, 1983, 1, 10⟩,
  ⟨some ("FCEUmm".toList), "Nintendo".toList, "Nintendo Entertainment System".toList, "home".toList, 1983, 1, 10⟩,
  ⟨some ("Nestopia".toList), "Nintendo".toList, "Nintendo Entertainment System".toList, "home".toList, 1983, 1, 10⟩,
  ⟨some ("QuickNES".toList), "Nintendo".toList, "Nintendo Entertainment System".toList, "home".toList, 1983, 1, 10⟩,
  ⟨some ("Super Nintendo".toList), "Nintendo".toList, "Super Nintendo Entertainment System".toList, "home".toList, 1990, 1, 20⟩,
  ⟨some ("Snes9x".toList), "Nintendo".toList, "Super Nintendo Entertainment System".toList, "home".toList, 1990, 1, 20⟩,
  ⟨some ("bsnes".toList), "Nintendo".toList, "Super Nintendo Entertainment System".toList, "home".toList, 1990, 1, 20⟩,
  ⟨some ("higan".toList), "Nintendo".toList, "Super Nintendo Entertainment System".toList, "home".toList, 1990, 1, 20⟩,
  ⟨some ("Nintendo 64".toList), "Nintendo".toList, "Nintendo 64".toList, "home".toList, 1996, 1, 30⟩,
  ⟨some ("Mupen64Plus".toList), "Nintendo".toList, "Nintendo 64".toList, "home".toList, 1996, 1, 30⟩,
  ⟨some ("ParaLLEl".toList), "Nintendo".toList, "Nintendo 64".toList, "home".toList, 1996, 1, 30⟩,
  ⟨some ("GameCube".toList), "Nintendo".toList, "Nintendo GameCube".toList, "home".toList, 2001, 1, 40⟩,
  ⟨some ("Dolphin".toList), "Nintendo".toList, "Nintendo GameCube".toList, "home".toList, 2001, 1, 40⟩,
  ⟨some ("Wii".toList), "Nintendo".toList, "Nintendo Wii".toList, "home".toList, 2006, 1, 50⟩,
  ⟨some ("Game Boy".toList), "Nintendo".toList, "Game Boy".toList, "portable".toList, 1989, 1, 100⟩,
  ⟨some ("SameBoy".toList), "Nintendo".toList, "Game Boy".toList, "portable".toList, 1989, 1, 100⟩,
  ⟨some ("Gambatte".toList), "Nintendo".toList, "Game Boy".toList, "portable".toList, 1989, 1, 100⟩,
  ⟨some ("TGB Dual".toList), "Nintendo".toList, "Game Boy".toList, "portable".toList, 1989, 1, 100⟩,
  ⟨some ("Game Boy Color".toList), "Nintendo".toList, "Game Boy Color".toList, "portable".toList, 1998, 1, 110⟩,
  ⟨some ("Game Boy Advance".toList), "Nintendo".toList, "Game Boy Advance".toList, "portable".toList, 2001, 1, 120⟩,
  ⟨some ("mGBA".toList), "Nintendo".toList, "Game Boy Advance".toList, "portable".toList, 2001, 1, 120⟩,
  ⟨some ("VBA".toList), "Nintendo".toList, "Game Boy Advance".toList, "portable".toList, 2001, 1, 120⟩,
  ⟨some ("VBA-M".toList), "Nintendo".toList, "Game Boy Advance".toList, "portable".toList, 2001, 1, 120⟩,
  ⟨some ("Nintendo DS".toList), "Nintendo".toList, "Nintendo DS".toList, "portable".toList, 2004, 1, 130⟩,
  ⟨some ("DeSmuME".toList), "Nintendo".toList, "Nintendo DS".toList, "portable".toList, 2004, 1, 130⟩,
  ⟨some ("melonDS".toList), "Nintendo".toList, "Nintendo DS".toList, "portable".toList, 2004, 1, 130⟩,
  ⟨some ("Nintendo 3DS".toList), "Nintendo".toList, "Nintendo 3DS".toList, "portable".toList, 2011, 1, 140⟩,
  ⟨some ("Citra".toList), "Nintendo".toList, "Nintendo 3DS".toList, "portable".toList, 2011, 1, 140⟩,
  ⟨some ("PlayStation".toList), "Sony".toList, "PlayStation".toList, "home".toList, 1994, 2, 10⟩,
  ⟨some ("PCSX".toList), "Sony".toList, "PlayStation".toList, "home".toList, 1994, 2, 10⟩,
  ⟨some ("Beetle PSX".toList), "Sony".toList, "PlayStation".toList, "home".toList, 1994, 2, 10⟩,
  ⟨some ("SwanStation".toList), "Sony".toList, "PlayStation".toList, "home".toList, 1994, 2, 10⟩,
  ⟨some ("PlayStation 2".toList), "Sony".toList, "PlayStation 2".toList, "home".toList, 2000, 2, 20⟩,
  ⟨some ("PCSX2".toList), "Sony".toList, "PlayStation 2".toList, "home".toList, 2000, 2, 20⟩,
  ⟨some ("PlayStation 3".toList), "Sony".toList, "PlayStation 3".toList, "home".toList, 2006, 2, 30⟩,
  ⟨some ("RPCS3".toList), "Sony".toList, "PlayStation 3".toList, "home".toList, 2006, 2, 30⟩,
  ⟨some ("PlayStation Portable".toList), "Sony".toList, "PlayStation Portable".toList, "portable".toList, 2004, 2, 100⟩,
  ⟨some ("PPSSPP".toList), "Sony".toList, "PlayStation Portable".toList, "portable".toList, 2004, 2, 100⟩,
  ⟨some ("PlayStation Vita".toList), "Sony".toList, "PlayStation Vita".toList, "portable".toList, 2011, 2, 110⟩,
  ⟨some ("Vita3K".toList), "Sony".toList, "PlayStation Vita".toList, "portable".toList, 2011, 2, 110⟩,
  ⟨some ("Master System".toList), "Sega".toList, "Sega Master System".toList, "home".toList, 1986, 3, 10⟩,
  ⟨some ("SMS Plus".toList), "Sega".toList, "Sega Master System".toList, "home".toList, 1986, 3, 10⟩,
  ⟨some ("Genesis".toList), "Sega".toList, "Sega Genesis/Mega Drive".toList, "home".toList, 1988, 3, 20⟩,
  ⟨some ("Mega Drive".toList), "Sega".toList, "Sega Genesis/Mega Drive".toList, "home".toList, 1988, 3, 20⟩,
  ⟨some ("Genesis Plus GX".toList), "Sega".toList, "Sega Genesis/Mega Drive".toList, "home".toList, 1988, 3, 20⟩,
  ⟨some ("PicoDrive".toList), "Sega".toList, "Sega Genesis/Mega Drive".toList, "home".toList, 1988, 3, 20⟩,
  ⟨some ("Sega CD".toList), "Sega".toList, "Sega CD".toList, "home".toList, 1991, 3, 25⟩,
  ⟨some ("32X".toList), "Sega".toList, "Sega 32X".toList, "home".toList, 1994, 3, 28⟩,
  ⟨some ("Saturn".toList), "Sega".toList, "Sega Saturn".toList, "home".toList, 1994, 3, 30⟩,
  ⟨some ("Beetle Saturn".toList), "Sega".toList, "Sega Saturn".toList, "home".toList, 1994, 3, 30⟩,
  ⟨some ("Yabause".toList), "Sega".toList, "Sega Saturn".toList, "home".toList, 1994, 3, 30⟩,
  ⟨some ("Kronos".toList), "Sega".toList, "Sega Saturn".toList, "home".toList, 1994, 3, 30⟩,
  ⟨some ("Dreamcast".toList), "Sega".toList, "Sega Dreamcast".toList, "home".toList, 1998, 3, 40⟩,
  ⟨some ("Flycast".toList), "Sega".toList, "Sega Dreamcast".toList, "home".toList, 1998, 3, 40⟩,
  ⟨some ("Redream".toList), "Sega".toList, "Sega Dreamcast".toList, "home".toList, 1998, 3, 40⟩,
  ⟨some ("Game Gear".toList), "Sega".toList, "Sega Game Gear".toList, "portable".toList, 1990, 3, 100⟩,
  ⟨some ("Atari 2600".toList), "Atari".toList, "Atari 2600".toList, "home".toList, 1977, 4, 10⟩,
  ⟨some ("Stella".toList), "Atari".toList, "Atari 2600".toList, "home".toList, 1977, 4, 10⟩,
  ⟨some ("Atari 5200".toList), "Atari".toList, "Atari 5200".toList, "home".toList, 1982, 4, 20⟩,
  ⟨some ("Atari 7800".toList), "Atari".toList, "Atari 7800".toList, "home".toList, 1986, 4, 30⟩,
  ⟨some ("ProSystem".toList), "Atari".toList, "Atari 7800".toList, "home".toList, 1986, 4, 30⟩,
  ⟨some ("Atari Jaguar".toList), "Atari".toList, "Atari Jaguar".toList, "home".toList, 1993, 4, 40⟩,
  ⟨some ("Virtual Jaguar".toList), "Atari".toList, "Atari Jaguar".toList, "home".toList, 1993, 4, 40⟩,
  ⟨some ("Atari Lynx".toList), "Atari".toList, "Atari Lynx".toList, "portable".toList, 1989, 4, 100⟩,
  ⟨some ("Handy".toList), "Atari".toList, "Atari Lynx".toList, "portable".toList, 1989, 4, 100⟩,
  ⟨some ("Neo Geo".toList), "SNK".toList, "Neo Geo".toList, "home".toList, 1990, 5, 10⟩,
  ⟨some ("FinalBurn Neo".toList), "SNK".toList, "Neo Geo".toList, "home".toList, 1990, 5, 10⟩,
  ⟨some ("Neo Geo Pocket".toList), "SNK".toList, "Neo Geo Pocket".toList, "portable".toList, 1998, 5, 100⟩,
  ⟨some ("RACE".toList), "SNK".toList, "Neo Geo Pocket".toList, "portable".toList, 1998, 5, 100⟩,
  ⟨some ("PC Engine".toList), "NEC".toList, "PC Engine/TurboGrafx-16".toList, "home".toList, 1987, 6, 10⟩,
  ⟨some ("Beetle PCE".toList), "NEC".toList, "PC Engine/TurboGrafx-16".toList, "home".toList, 1987, 6, 10⟩,
  ⟨some ("TurboGrafx".toList), "NEC".toList, "PC Engine/TurboGrafx-16".toList, "home".toList, 1987, 6, 10⟩,
  ⟨some ("PC-FX".toList), "NEC".toList, "PC-FX".toList, "home".toList, 1994, 6, 20⟩,
  ⟨some ("WonderSwan".toList), "Bandai".toList, "WonderSwan".toList, "portable".toList, 1999, 7, 100⟩,
  ⟨some ("Beetle Cygne".toList), "Bandai".toList, "WonderSwan".toList, "portable".toList, 1999, 7, 100⟩,
  ⟨some ("MAME".toList), "Arcade".toList, "Multiple Arcade Systems".toList, "arcade".toList, 1972, 8, 10⟩,
  ⟨some ("Final Burn".toList), "Arcade".toList, "Multiple Arcade Systems".toList, "arcade".toList, 1972, 8, 10⟩,
  ⟨some ("FBNeo".toList), "Arcade".toList, "Multiple Arcade Systems".toList, "arcade".toList, 1972, 8, 10⟩,
  ⟨some ("Commodore 64".toList), "Commodore".toList, "Commodore 64".toList, "computer".toList, 1982, 9, 10⟩,
  ⟨some ("VICE".toList), "Commodore".toList, "Commodore 64".toList, "computer".toList, 1982, 9, 10⟩,
  ⟨some ("Amiga".toList), "Commodore".toList, "Amiga".toList, "computer".toList, 1985, 9, 20⟩,
  ⟨some ("PUAE".toList), "Commodore".toList, "Amiga".toList, "computer".toList, 1985, 9, 20⟩,
  ⟨some ("MSX".toList), "Microsoft".toList, "MSX".toList, "computer".toList, 1983, 10, 10⟩,
  ⟨some ("blueMSX".toList), "Microsoft".toList, "MSX".toList, "computer".toList, 1983, 10, 10⟩,
  ⟨some ("DOS".toList), "IBM".toList, "IBM PC Compatible".toList, "computer".toList, 1981, 11, 10⟩,
  ⟨some ("DOSBox".toList), "IBM".toList, "IBM PC Compatible".toList, "computer".toList, 1981, 11, 10⟩,
  wizmodlFallback]

/-- The scan loop of `get_core_metadata_wizmodl` over the non-fallback rows:
first row whose `core_name` pattern occurs in `display_name` wins. -/
def metaScan (display_name : List Char) : List CoreMetadataWizmodl → CoreMetadataWizmodl
  | [] => wizmodlFallback
  | r :: rest =>
    match r.core_name with
    | some pat => if strstrB display_name pat then r else metaScan display_name rest
    | none => metaScan display_name rest

/-- Model of `get_core_metadata_wizmodl`: empty names map to the fallback, otherwise
scan all rows except the trailing fallback. -/
def get_core_metadata_wizmodl (display_name : List Char) : CoreMetadataWizmodl :=
  if string_is_empty display_name then wizmodlFallback
  else metaScan display_name core_metadata_wizmodl_db.dropLast

/-- The `snprintf(header_text, ..., "=== %s ===", manufacturer)` text. -/
def mfgHeaderText (manufacturer : List Char) : List Char :=
  "=== ".toList ++ manufacturer ++ " ===".toList

/-- Decimal rendering of a (non-negative) year for `%d`. -/
def yearChars (y : Int) : List Char := (Nat.repr y.toNat).toList

/-- The console header text: `"--- %s (%d) ---"` when
`0 < release_year < 9999`, else `"--- %s ---"`. -/
def consoleHeaderText (console_model : List Char) (release_year : Int) : List Char :=
  if 0 < release_year ∧ release_year < 9999 then
    "--- ".toList ++ console_model ++ " (".toList ++ yearChars release_year ++ ") ---".toList
  else
    "--- ".toList ++ console_model ++ " ---".toList

/-- The entry built by `create_manufacturer_header` (after its malloc
succeeded; the malloc and the empty-name guard live in
`createManufacturerHeaderM`). -/
def create_manufacturer_header (manufacturer : List Char) : CoreUpdaterListEntry :=
  { zeroEntry with
    remote_filename := mfgHeaderText manufacturer
    display_name := mfgHeaderText manufacturer
    description := []
    is_experimental := false
    is_manufacturer_header := true
    is_console_header := false
    crc := 0 }

/-- The entry built by `create_console_header` (after its malloc succeeded). -/
def create_console_header (console_model : List Char) (release_year : Int) : CoreUpdaterListEntry :=
  { zeroEntry with
    remote_filename := consoleHeaderText console_model release_year
    display_name := consoleHeaderText console_model release_year
    description := []
    is_experimental := false
    is_manufacturer_header := false
    is_console_header := true
    crc := 0 }

/-- The real-entry tail of the wizmodl comparator (source lines 1007-1043),
reached when neither argument is a header. -/
def cmpWizmodlReal (a b : CoreUpdaterListEntry) : Int :=
  if string_is_empty a.display_name || string_is_empty b.display_name then 0
  else
    let ma := get_core_metadata_wizmodl a.display_name
    let mb := get_core_metadata_wizmodl b.display_name
    if ma.manufacturer_priority ≠ mb.manufacturer_priority then
      (if ma.manufacturer_priority < mb.manufacturer_priority then -1 else 1)
    else if strcasecmp ma.manufacturer mb.manufacturer ≠ 0 then
      strcasecmp ma.manufacturer mb.manufacturer
    else if ma.console_priority ≠ mb.console_priority then
      (if ma.console_priority < mb.console_priority then -1 else 1)
    else if strcasecmp ma.console_model mb.console_model ≠ 0 then
      strcasecmp ma.console_model mb.console_model
    else if strcasecmp ma.console_type mb.console_type ≠ 0 then
      strcasecmp ma.console_type mb.console_type
    else if ma.release_year - mb.release_year ≠ 0 then
      ma.release_year - mb.release_year
    else strcasecmp a.display_name b.display_name

/-- Model of `core_updater_list_qsort_func_wizmodl`. -/
def core_updater_list_qsort_func_wizmodl (a b : CoreUpdaterListEntry) : Int :=
  if (a.is_manufacturer_header || a.is_console_header)
      && !(b.is_manufacturer_header || b.is_console_header) then -1
  else if !(a.is_manufacturer_header || a.is_console_header)
      && (b.is_manufacturer_header || b.is_console_header) then 1
  else if a.is_manufacturer_header && b.is_console_header then -1
  else if a.is_console_header && b.is_manufacturer_header then 1
  else if (a.is_manufacturer_header && b.is_manufacturer_header)
      || (a.is_console_header && b.is_console_header) then
    strcasecmp a.display_name b.display_name
  else cmpWizmodlReal a b

/-- Model of `core_updater_list_qsort_func` (the plain, non-grouping comparator). -/
def core_updater_list_qsort_func (a b : CoreUpdaterListEntry) : Int :=
  if string_is_empty a.display_name || string_is_empty b.display_name then 0
  else strcasecmp a.display_name b.display_name

/-- Stable insertion of one entry with the wizmodl comparator. -/
def wizInsert (x : CoreUpdaterListEntry) :
    List CoreUpdaterListEntry → List CoreUpdaterListEntry
  | [] => [x]
  | y :: ys =>
    if core_updater_list_qsort_func_wizmodl x y ≤ 0 then x :: y :: ys
    else y :: wizInsert x ys

/-- Model of the `qsort` call with `core_updater_list_qsort_func_wizmodl`:
a stable insertion sort (C `qsort` leaves tie order unspecified; the model
fixes the stable order). -/
def sortWizmodl (l : List CoreUpdaterListEntry) : List CoreUpdaterListEntry :=
  l.foldr wizInsert []

/-- State threaded through `core_updater_list_inject_dual_headers`: the new
RBUF's capacity and length (`new_count`), the two grouping trackers, and the
allocation oracle. -/
structure InjectState where
  cap : Nat
  cnt : Nat
  lastManufacturer : Option (List Char)
  lastConsoleModel : Option (List Char)
  oracle : List Bool
deriving DecidableEq

/-- One heap allocation attempt: pop the oracle (empty = success). -/
def allocNext (o : List Bool) : Bool × List Bool :=
  match o with
  | [] => (true, [])
  | b :: r => (b, r)

/-- Model of `RBUF_TRYFIT`: no allocation when the capacity already suffices,
otherwise one allocation attempt that on success grows the capacity. -/
def rbufTryfit (cap needed : Nat) (o : List Bool) : Bool × Nat × List Bool :=
  if needed ≤ cap then (true, cap, o)
  else
    let a := allocNext o
    if a.1 then (true, needed, a.2) else (false, cap, a.2)

/-- Model of `RBUF_TRYFIT` + `RBUF_RESIZE` + `memcpy` of one prepared entry into the
new array; on failure the entry is simply not appended. -/
def injectPush (st : InjectState) (x : CoreUpdaterListEntry) :
    List CoreUpdaterListEntry × InjectState :=
  let r := rbufTryfit st.cap (st.cnt + 1) st.oracle
  if r.1 then ([x], { st with cap := r.2.1, cnt := st.cnt + 1, oracle := r.2.2 })
  else ([], { st with cap := r.2.1, oracle := r.2.2 })

/-- Model of `create_manufacturer_header` with its NULL-name guard and malloc. -/
def createManufacturerHeaderM (st : InjectState) (manufacturer : List Char) :
    Option CoreUpdaterListEntry × InjectState :=
  if string_is_empty manufacturer then (none, st)
  else
    let a := allocNext st.oracle
    if a.1 then (some (create_manufacturer_header manufacturer), { st with oracle := a.2 })
    else (none, { st with oracle := a.2 })

/-- Model of `create_console_header` with its NULL-name guard and malloc. -/
def createConsoleHeaderM (st : InjectState) (console_model : List Char)
    (release_year : Int) : Option CoreUpdaterListEntry × InjectState :=
  if string_is_empty console_model then (none, st)
  else
    let a := allocNext st.oracle
    if a.1 then (some (create_console_header console_model release_year), { st with oracle := a.2 })
    else (none, { st with oracle := a.2 })

/-- Push a header if its creation succeeded (NULL headers are skipped). -/
def injectHeaderPush (st : InjectState) (hdr : Option CoreUpdaterListEntry) :
    List CoreUpdaterListEntry × InjectState :=
  match hdr with
  | some h => injectPush st h
  | none => ([], st)

/-- The per-entry deep copy of the injection pass (source lines 1137-1151):
every string is duplicated by value, the header flags are cleared, and the
`licenses_list` pointer is copied as-is (aliased, not duplicated). -/
def copyEntryWizmodl (e : CoreUpdaterListEntry) : CoreUpdaterListEntry :=
  { remote_filename := e.remote_filename
    remote_core_path := e.remote_core_path
    local_core_path := e.local_core_path
    local_info_path := e.local_info_path
    display_name := e.display_name
    description := e.description
    licenses_list := e.licenses_list
    is_experimental := e.is_experimental
    is_manufacturer_header := false
    is_console_header := false
    crc := e.crc
    date := e.date }

/-- Model of `!last || strcasecmp(last, key) != 0`. -/
def needNewKey (last : Option (List Char)) (key : List Char) : Bool :=
  match last with
  | none => true
  | some lk => !(strcasecmp lk key == 0)

/-- The loop body of `core_updater_list_inject_dual_headers` for one
non-empty-named entry: maybe a manufacturer header, maybe a console header,
then the copied entry; the trackers are updated even when a header
allocation fails. -/
def injectEntryStep (st : InjectState) (e : CoreUpdaterListEntry) :
    List CoreUpdaterListEntry × InjectState :=
  let meta := get_core_metadata_wizmodl e.display_name
  let r1 :=
    if needNewKey st.lastManufacturer meta.manufacturer then
      let c := createManufacturerHeaderM st meta.manufacturer
      let p := injectHeaderPush c.2 c.1
      (p.1, { p.2 with lastManufacturer := some meta.manufacturer, lastConsoleModel := none })
    else (([] : List CoreUpdaterListEntry), st)
  let st1 := r1.2
  let r2 :=
    if needNewKey st1.lastConsoleModel meta.console_model then
      let c := createConsoleHeaderM st1 meta.console_model meta.release_year
      let p := injectHeaderPush c.2 c.1
      (p.1, { p.2 with lastConsoleModel := some meta.console_model })
    else (([] : List CoreUpdaterListEntry), st1)
  let r3 := injectPush r2.2 (copyEntryWizmodl e)
  (r1.1 ++ (r2.1 ++ r3.1), r3.2)

/-- The `for` loop of `core_updater_list_inject_dual_headers`: entries with
an empty display name are skipped entirely. -/
def injectLoop : InjectState → List CoreUpdaterListEntry →
    List CoreUpdaterListEntry × InjectState
  | st, [] => ([], st)
  | st, e :: rest =>
    if string_is_empty e.display_name then injectLoop st rest
    else
      let r := injectEntryStep st e
      let t := injectLoop r.2 rest
      (r.1 ++ t.1, t.2)

/-- The `string_list_free(entry->licenses_list)` call inside
`core_updater_list_free_entry`, projected to which licenses allocation it
frees (the entry's other frees are balanced per-entry string frees). -/
def core_updater_list_free_entry_licenses (e : CoreUpdaterListEntry) : List Nat :=
  match e.licenses_list with
  | some p => [p]
  | none => []

/-- Licenses allocations freed when every entry of a list is passed to
`core_updater_list_free_entry` (as in `core_updater_list_reset` and in the
injection pass's replacement step). -/
def listLicenseFrees : List CoreUpdaterListEntry → List Nat
  | [] => []
  | e :: r => core_updater_list_free_entry_licenses e ++ listLicenseFrees r

/-- Model of `core_updater_list_inject_dual_headers`.  Returns the list's entries
after the call together with the licenses allocations freed during it:
on the replacement path every original entry is freed and the freshly built
sequence (whose copies alias the original `licenses_list` pointers) becomes
the list's storage; when the initial allocation fails or nothing was built,
the original entries stay and nothing is freed. -/
def core_updater_list_inject_dual_headers (oracle : List Bool)
    (entries : List CoreUpdaterListEntry) :
    List CoreUpdaterListEntry × List Nat :=
  if entries.isEmpty then (entries, [])
  else
    let f := rbufTryfit 0 (entries.length * 3) oracle
    if f.1 then
      let r := injectLoop ⟨f.2.1, 0, none, none, f.2.2⟩ entries
      if 0 < r.2.cnt then (r.1, listLicenseFrees entries)
      else (entries, [])
    else (entries, [])

/-- Model of `core_updater_list_qsort_wizmodl`: sort, then inject dual headers;
lists shorter than 2 are left untouched. -/
def core_updater_list_qsort_wizmodl (oracle : List Bool)
    (entries : List CoreUpdaterListEntry) : List CoreUpdaterListEntry :=
  if entries.length < 2 then entries
  else (core_updater_list_inject_dual_headers oracle (sortWizmodl entries)).1

/-- The result of `core_info_get_core_updater_info` (external per §6:
display name, description, "|"-delimited licenses, experimental flag). -/
structure CoreUpdaterInfo where
  display_name : List Char
  description : List Char
  licenses : List Char
  is_experimental : Bool

/-- External collaborators consumed through narrow interfaces (spec §6):
path utilities, URL utilities and the metadata provider.  The embedding is
parametric in them. -/
structure PathEnv where
  is_compressed : List Char → Bool
  join : List Char → List Char → List Char
  urlencode : List Char → List Char
  resolve_realpath : List Char → Bool → List Char
  remove_extension : List Char → List Char
  info_lookup : List Char → Option CoreUpdaterInfo

/-- Modelled from the spec: `FILE_PATH_CORE_INFO_EXTENSION`
(`file_path_special.h`, not under src/), "the fixed metadata-file
extension". -/
def infoExtension : List Char := ".info".toList

/-- The `_libretro` suffix normalisation of `core_updater_list_set_paths`:
truncate at the last underscore unless the suffix from it is exactly
`_libretro`. -/
def stripNonLibretroAddendum (s : List Char) : List Char :=
  match splitAtLastChar '_' s with
  | none => s
  | some (p, suf) => if suf = "_libretro".toList then s else p

/-- The list container state: its entries and its source type. -/
structure CoreUpdaterListState where
  entries : List CoreUpdaterListEntry
  type : CoreUpdaterListType
deriving DecidableEq

/-- Model of `core_updater_list_reset`: all entries freed, length zero, type unknown. -/
def core_updater_list_reset (_st : CoreUpdaterListState) : CoreUpdaterListState :=
  ⟨[], CoreUpdaterListType.unknown⟩

/-- Model of `core_updater_list_get_filename`: linear scan for the first entry with a
non-empty `remote_filename` equal to the query; empty query always misses. -/
def core_updater_list_get_filename (entries : List CoreUpdaterListEntry)
    (remote_filename : List Char) : Option CoreUpdaterListEntry :=
  if string_is_empty remote_filename then none
  else entries.find? (fun e =>
    !string_is_empty e.remote_filename && e.remote_filename == remote_filename)

/-- Model of `core_updater_list_set_date`: split on `-` (strtok semantics), require at
least three components, convert each with `string_to_unsigned`. -/
def core_updater_list_set_date (entry : CoreUpdaterListEntry)
    (date_str : List Char) : Option CoreUpdaterListEntry :=
  if string_is_empty date_str then none
  else
    match strtokSplit '-' date_str with
    | e0 :: e1 :: e2 :: _ =>
      some { entry with date :=
        ⟨string_to_unsigned e0, string_to_unsigned e1, string_to_unsigned e2⟩ }
    | _ => none

/-- Model of `core_updater_list_set_crc`: hex-parse, reject empty strings and a parsed
value of 0. -/
def core_updater_list_set_crc (entry : CoreUpdaterListEntry)
    (crc_str : List Char) : Option CoreUpdaterListEntry :=
  if string_is_empty crc_str then none
  else
    let crc := string_hex_to_unsigned crc_str
    if crc = 0 then none else some { entry with crc := crc }

/-- Model of `core_updater_list_set_paths`.  For non-buildbot lists the
`remote_core_path` is modelled as empty (the C code strdups an uninitialised
stack buffer there; the spec fixes it as "empty unless the source is the
build-server protocol"). -/
def core_updater_list_set_paths (env : PathEnv) (entry : CoreUpdaterListEntry)
    (path_dir_libretro path_libretro_info network_buildbot_url filename_str : List Char)
    (list_type : CoreUpdaterListType) : Option CoreUpdaterListEntry :=
  if string_is_empty filename_str || string_is_empty path_dir_libretro
      || string_is_empty path_libretro_info then none
  else if list_type = CoreUpdaterListType.buildbot
      ∧ string_is_empty network_buildbot_url then none
  else
    let is_archive := env.is_compressed filename_str
    let resolve_symlinks := list_type ≠ CoreUpdaterListType.pfd
    let remote_core_path :=
      if list_type = CoreUpdaterListType.buildbot then
        env.urlencode (env.join network_buildbot_url filename_str)
      else []
    let lc0 := env.join path_dir_libretro filename_str
    let lc1 := if is_archive then env.remove_extension lc0 else lc0
    let local_core_path := env.resolve_realpath lc1 resolve_symlinks
    let li0 := env.remove_extension (env.join path_libretro_info filename_str)
    let li1 := if is_archive then env.remove_extension li0 else li0
    let local_info_path := stripNonLibretroAddendum li1 ++ infoExtension
    some { entry with
      remote_filename := filename_str
      remote_core_path := remote_core_path
      local_core_path := local_core_path
      local_info_path := local_info_path }

/-- Model of `core_updater_list_set_core_info`: clear the core-info fields, then fill
them from the info file when available, falling back to the filename with
`is_experimental = true`.  A non-empty licenses string is split into a fresh
`string_list` allocation, whose identifier is drawn from `nextId`. -/
def core_updater_list_set_core_info (env : PathEnv) (entry : CoreUpdaterListEntry)
    (local_info_path filename_str : List Char) (nextId : Nat) :
    Option (CoreUpdaterListEntry × Nat) :=
  if string_is_empty local_info_path || string_is_empty filename_str then none
  else
    let cleared := { entry with
      display_name := ([] : List Char)
      description := ([] : List Char)
      licenses_list := (none : Option Nat)
      is_experimental := false }
    match env.info_lookup local_info_path with
    | some info =>
      let e1 :=
        if string_is_empty info.display_name then
          { cleared with display_name := filename_str, is_experimental := true }
        else
          { cleared with
            display_name := info.display_name
            is_experimental := info.is_experimental }
      let e2 :=
        if string_is_empty info.description then { e1 with description := ([] : List Char) }
        else { e1 with description := info.description }
      if string_is_empty info.licenses then some (e2, nextId)
      else some ({ e2 with licenses_list := some nextId }, nextId + 1)
    | none =>
      some ({ cleared with
              display_name := filename_str
              is_experimental := true
              description := ([] : List Char) }, nextId)

/-- Model of `core_updater_list_add_entry` (one buildbot listing line).  The
accumulator is the entry list so far plus the next fresh licenses-allocation
id; on any per-record failure the accumulator is returned unchanged.
Allocation failure inside this path (which would likewise just drop the
record) is not modelled; the allocation oracle lives in the injection pass. -/
def core_updater_list_add_entry (env : PathEnv)
    (acc : List CoreUpdaterListEntry × Nat)
    (path_dir_libretro path_libretro_info network_buildbot_url
      date_str crc_str filename_str : List Char) :
    List CoreUpdaterListEntry × Nat :=
  if (core_updater_list_get_filename acc.1 filename_str).isSome then acc
  else
    match core_updater_list_set_date zeroEntry date_str with
    | none => acc
    | some e1 =>
      match core_updater_list_set_crc e1 crc_str with
      | none => acc
      | some e2 =>
        match core_updater_list_set_paths env e2 path_dir_libretro
            path_libretro_info network_buildbot_url filename_str
            CoreUpdaterListType.buildbot with
        | none => acc
        | some e3 =>
          match core_updater_list_set_core_info env e3 e3.local_info_path
              filename_str acc.2 with
          | none => acc
          | some r => (acc.1 ++ [r.1], r.2)

/-- The first three space-separated tokens of a listing line
(`date`, `crc`, `filename`); fewer than three tokens skips the line. -/
def firstThreeTokens (l : List (List Char)) :
    Option (List Char × List Char × List Char) :=
  match l with
  | a :: b :: c :: _ => some (a, b, c)
  | _ => none

/-- Model of `core_updater_list_parse_network_data`.  Here `data` models the `len` bytes of
the network buffer (no interior NUL).  The `malloc` of the working buffer is
assumed to succeed. -/
def core_updater_list_parse_network_data (env : PathEnv)
    (st : CoreUpdaterListState)
    (path_dir_libretro path_libretro_info network_buildbot_url data : List Char) :
    Bool × CoreUpdaterListState :=
  if string_is_empty data then (false, st)
  else
    let st0 := core_updater_list_reset st
    if countCharOcc '\n' data < 1 then (false, st0)
    else
      let built := (strtokSplit '\n' data).foldl (fun acc line =>
        match firstThreeTokens (strtokSplit ' ' line) with
        | some t =>
          core_updater_list_add_entry env acc path_dir_libretro
            path_libretro_info network_buildbot_url t.1 t.2.1 t.2.2
        | none => acc) (([] : List CoreUpdaterListEntry), 0)
      if built.1.length < 1 then (false, st0)
      else (true, ⟨core_updater_list_qsort_wizmodl [] built.1,
                   CoreUpdaterListType.buildbot⟩)

/-- Model of `core_updater_list_add_pfd_entry` (one play-feature-delivery filename):
no date/crc parsing, no buildbot URL. -/
def core_updater_list_add_pfd_entry (env : PathEnv)
    (acc : List CoreUpdaterListEntry × Nat)
    (path_dir_libretro path_libretro_info filename_str : List Char) :
    List CoreUpdaterListEntry × Nat :=
  if string_is_empty filename_str then acc
  else if (core_updater_list_get_filename acc.1 filename_str).isSome then acc
  else
    match core_updater_list_set_paths env zeroEntry path_dir_libretro
        path_libretro_info [] filename_str CoreUpdaterListType.pfd with
    | none => acc
    | some e1 =>
      match core_updater_list_set_core_info env e1 e1.local_info_path
          filename_str acc.2 with
      | none => acc
      | some r => (acc.1 ++ [r.1], r.2)

/-- Model of `core_updater_list_parse_pfd_data`. -/
def core_updater_list_parse_pfd_data (env : PathEnv)
    (st : CoreUpdaterListState)
    (path_dir_libretro path_libretro_info : List Char)
    (pfd_cores : List (List Char)) : Bool × CoreUpdaterListState :=
  if pfd_cores.length < 1 then (false, st)
  else
    let st0 := core_updater_list_reset st
    let built := pfd_cores.foldl (fun acc fn =>
      if string_is_empty fn then acc
      else core_updater_list_add_pfd_entry env acc path_dir_libretro
        path_libretro_info fn) (([] : List CoreUpdaterListEntry), 0)
    if built.1.length < 1 then (false, st0)
    else (true, ⟨core_updater_list_qsort_wizmodl [] built.1,
                 CoreUpdaterListType.pfd⟩)

/-- Remove the synthetic header entries from a list (used to state the
idempotence claim about the Grouping Sort). -/
def stripHeaders (l : List CoreUpdaterListEntry) : List CoreUpdaterListEntry :=
  l.filter (fun e => !(e.is_manufacturer_header || e.is_console_header))

/-- An `Ordering` as the sign of a C comparator result. -/
def ordToInt : Ordering → Int
  | Ordering.lt => -1
  | Ordering.eq => 0
  | Ordering.gt => 1

/-- Spec-side case-insensitive comparison: lexicographic on the case-folded
character codes, shorter strings first. -/
def caseCmpO : List Char → List Char → Ordering
  | [], [] => Ordering.eq
  | [], _ :: _ => Ordering.lt
  | _ :: _, [] => Ordering.gt
  | a :: as, b :: bs => (compare (lowerChar a) (lowerChar b)).then (caseCmpO as bs)

/-- Spec-side metadata lookup, following the spec text: "first table entry
whose pattern is a substring of the name wins; an unmatched name maps to the
trailing fallback record". -/
def specMetadataLookup (display_name : List Char) : CoreMetadataWizmodl :=
  ((core_metadata_wizmodl_db.dropLast).find? (fun r =>
    match r.core_name with
    | some pat => strstrB display_name pat
    | none => false)).getD wizmodlFallback

/-- Spec-side grouping comparison of two real entries, following the spec's
key chain: "(a) manufacturer_priority ascending, (b) manufacturer name
case-insensitive, (c) console_priority ascending, (d) console_model name
case-insensitive, (e) console_type case-insensitive, (f) release_year
ascending, (g) display_name case-insensitive". -/
def specGroupingCompare (a b : CoreUpdaterListEntry) : Ordering :=
  let ma := specMetadataLookup a.display_name
  let mb := specMetadataLookup b.display_name
  (compare ma.manufacturer_priority mb.manufacturer_priority).then
  ((caseCmpO ma.manufacturer mb.manufacturer).then
  ((compare ma.console_priority mb.console_priority).then
  ((caseCmpO ma.console_model mb.console_model).then
  ((caseCmpO ma.console_type mb.console_type).then
  ((compare ma.release_year mb.release_year).then
  (caseCmpO a.display_name b.display_name))))))

/-- A modelled C string has no interior NUL (no character of code 0). -/
def noNulChars (s : List Char) : Prop := ∀ c ∈ s, c.toNat ≠ 0

instance noNulCharsDecidable (s : List Char) : Decidable (noNulChars s) :=
  inferInstanceAs (Decidable (∀ c ∈ s, c.toNat ≠ 0))

/-- The emission of one entry's injection step when every allocation
succeeds (proof-side description of `injectEntryStep`). -/
def pureStepEmit (lM lC : Option (List Char)) (e : CoreUpdaterListEntry) :
    List CoreUpdaterListEntry :=
  let meta := get_core_metadata_wizmodl e.display_name
  let nM := needNewKey lM meta.manufacturer
  let lC1 := if nM then none else lC
  let nC := needNewKey lC1 meta.console_model
  (if nM then
    (if string_is_empty meta.manufacturer then []
     else [create_manufacturer_header meta.manufacturer])
   else []) ++
  ((if nC then
    (if string_is_empty meta.console_model then []
     else [create_console_header meta.console_model meta.release_year])
    else []) ++
   [copyEntryWizmodl e])

/-- The grouping trackers after one entry's injection step. -/
def pureNextKeys (lM lC : Option (List Char)) (e : CoreUpdaterListEntry) :
    Option (List Char) × Option (List Char) :=
  let meta := get_core_metadata_wizmodl e.display_name
  let nM := needNewKey lM meta.manufacturer
  let lM2 := if nM then some meta.manufacturer else lM
  let lC1 := if nM then none else lC
  let lC2 := if needNewKey lC1 meta.console_model then some meta.console_model else lC1
  (lM2, lC2)

/-- The sequence built by the injection loop when every allocation succeeds
(proof-side description of `injectLoop` with an exhausted oracle). -/
def pureInterleave : Option (List Char) → Option (List Char) →
    List CoreUpdaterListEntry → List CoreUpdaterListEntry
  | _, _, [] => []
  | lM, lC, e :: rest =>
    if string_is_empty e.display_name then pureInterleave lM lC rest
    else pureStepEmit lM lC e ++
      pureInterleave (pureNextKeys lM lC e).1 (pureNextKeys lM lC e).2 rest

/-- A concrete environment for closed evaluations: nothing is an archive,
path join inserts `/`, URL encoding and realpath are the identity, extension
removal drops the part after the last dot, and no info file exists. -/
def env0 : PathEnv :=
  { is_compressed := fun _ => false
    join := fun a b => a ++ '/' :: b
    urlencode := fun p => p
    resolve_realpath := fun p _ => p
    remove_extension := fun s =>
      match splitAtLastChar '.' s with
      | none => s
      | some r => r.1
    info_lookup := fun _ => none }

/-- A concrete real entry whose display name matches the Snes9x metadata
row. -/
def eSnes : CoreUpdaterListEntry :=
  { zeroEntry with
    remote_filename := "snes9x_libretro.so".toList
    display_name := "Snes9x".toList
    crc := 1 }

/-- The entry `eSnes` with an owned licenses list (allocation id 0). -/
def eSnesLic : CoreUpdaterListEntry := { eSnes with licenses_list := some 0 }

/-- A concrete real entry whose display name matches the FCEUmm metadata
row. -/
def eFceumm : CoreUpdaterListEntry :=
  { zeroEntry with
    remote_filename := "fceumm_libretro.so".toList
    display_name := "FCEUmm".toList
    crc := 2 }

/-- A concrete real entry with an empty display name. -/
def eBlankName : CoreUpdaterListEntry :=
  { zeroEntry with remote_filename := "blank_a.so".toList }

/-- A second concrete real entry with an empty display name. -/
def eBlankName2 : CoreUpdaterListEntry :=
  { zeroEntry with remote_filename := "blank_b.so".toList }

/-! ### Comparator infrastructure -/

theorem strcasecmp_neg (x y : List Char) : strcasecmp y x = -strcasecmp x y := by
  induction x generalizing y with
  | nil => cases y <;> simp [strcasecmp]
  | cons a as ih =>
    cases y with
    | nil => simp [strcasecmp]
    | cons b bs =>
      simp only [strcasecmp]
      by_cases h : lowerChar a = lowerChar b
      · rw [if_pos h.symm, if_pos h]
        exact ih bs
      · rw [if_neg (fun hh => h hh.symm), if_neg h]
        omega

theorem ite_neg_chain (c1 c2 : Prop) [Decidable c1] [Decidable c2] (h : c1 ↔ c2)
    (v1 v2 w1 w2 : Int) (hv : c1 → v1 = -v2) (hw : ¬c1 → w1 = -w2) :
    (if c1 then v1 else w1) = -(if c2 then v2 else w2) := by
  by_cases hc : c1
  · rw [if_pos hc, if_pos (h.mp hc)]
    exact hv hc
  · rw [if_neg hc, if_neg (fun hh => hc (h.mpr hh))]
    exact hw hc

theorem cmpWizmodlReal_antisym (a b : CoreUpdaterListEntry) :
    cmpWizmodlReal b a = -cmpWizmodlReal a b := by
  simp only [cmpWizmodlReal]
  by_cases hA : string_is_empty a.display_name
  · simp [hA]
  · by_cases hB : string_is_empty b.display_name
    · simp [hB]
    · have hO1 : ¬((string_is_empty b.display_name || string_is_empty a.display_name) = true) := by
        simp [hA, hB]
      have hO2 : ¬((string_is_empty a.display_name || string_is_empty b.display_name) = true) := by
        simp [hA, hB]
      rw [if_neg hO1, if_neg hO2,
        strcasecmp_neg a.display_name b.display_name,
        strcasecmp_neg (get_core_metadata_wizmodl a.display_name).manufacturer
          (get_core_metadata_wizmodl b.display_name).manufacturer,
        strcasecmp_neg (get_core_metadata_wizmodl a.display_name).console_model
          (get_core_metadata_wizmodl b.display_name).console_model,
        strcasecmp_neg (get_core_metadata_wizmodl a.display_name).console_type
          (get_core_metadata_wizmodl b.display_name).console_type]
      apply ite_neg_chain _ _ ne_comm
      · intro h1
        split_ifs <;> omega
      · intro h1
        apply ite_neg_chain _ _ (by omega)
        · intro h2
          omega
        · intro h2
          apply ite_neg_chain _ _ ne_comm
          · intro h3
            split_ifs <;> omega
          · intro h3
            apply ite_neg_chain _ _ (by omega)
            · intro h4
              omega
            · intro h4
              apply ite_neg_chain _ _ (by omega)
              · intro h5
                omega
              · intro h5
                apply ite_neg_chain _ _ (by omega)
                · intro h6
                  omega
                · intro h6
                  omega

theorem cmpWizmodl_antisym_real (a b : CoreUpdaterListEntry)
    (ha1 : a.is_manufacturer_header = false) (ha2 : a.is_console_header = false)
    (hb1 : b.is_manufacturer_header = false) (hb2 : b.is_console_header = false) :
    core_updater_list_qsort_func_wizmodl b a
      = -core_updater_list_qsort_func_wizmodl a b := by
  simp only [core_updater_list_qsort_func_wizmodl, ha1, ha2, hb1, hb2,
    Bool.or_self, Bool.and_false, Bool.false_and, Bool.not_false, Bool.and_true,
    Bool.or_false, Bool.false_or, if_false, Bool.false_eq_true, ite_false]
  exact cmpWizmodlReal_antisym a b

/-! ### Insertion-sort infrastructure -/

theorem sortWizmodl_cons (x : CoreUpdaterListEntry) (t : List CoreUpdaterListEntry) :
    sortWizmodl (x :: t) = wizInsert x (sortWizmodl t) := rfl

theorem mem_wizInsert (z x : CoreUpdaterListEntry) (l : List CoreUpdaterListEntry) :
    z ∈ wizInsert x l ↔ z = x ∨ z ∈ l := by
  induction l with
  | nil => simp [wizInsert]
  | cons y ys ih =>
    simp only [wizInsert]
    split
    · simp [List.mem_cons]
    · simp only [List.mem_cons, ih]
      tauto

theorem mem_sortWizmodl (z : CoreUpdaterListEntry) (l : List CoreUpdaterListEntry) :
    z ∈ sortWizmodl l ↔ z ∈ l := by
  induction l with
  | nil => simp [sortWizmodl]
  | cons x t ih =>
    rw [sortWizmodl_cons, mem_wizInsert]
    simp [ih]

theorem length_wizInsert (x : CoreUpdaterListEntry) (l : List CoreUpdaterListEntry) :
    (wizInsert x l).length = l.length + 1 := by
  induction l with
  | nil => rfl
  | cons y ys ih =>
    simp only [wizInsert]
    split
    · rfl
    · simp [ih]

theorem length_sortWizmodl (l : List CoreUpdaterListEntry) :
    (sortWizmodl l).length = l.length := by
  induction l with
  | nil => rfl
  | cons x t ih =>
    rw [sortWizmodl_cons, length_wizInsert, ih]
    rfl

theorem head?_wizInsert (x : CoreUpdaterListEntry) (l : List CoreUpdaterListEntry) :
    (wizInsert x l).head? = some x ∨ (wizInsert x l).head? = l.head? := by
  cases l with
  | nil => simp [wizInsert]
  | cons y ys =>
    simp only [wizInsert]
    split
    · simp
    · simp

theorem chain'_wizInsert (x : CoreUpdaterListEntry) (l : List CoreUpdaterListEntry)
    (hx1 : x.is_manufacturer_header = false) (hx2 : x.is_console_header = false)
    (hl : ∀ e ∈ l, e.is_manufacturer_header = false ∧ e.is_console_header = false)
    (h : List.Chain' (fun a b => core_updater_list_qsort_func_wizmodl a b ≤ 0) l) :
    List.Chain' (fun a b => core_updater_list_qsort_func_wizmodl a b ≤ 0) (wizInsert x l) := by
  induction l with
  | nil => simp [wizInsert]
  | cons y ys ih =>
    simp only [wizInsert]
    split
    · rename_i hcmp
      exact List.Chain'.cons hcmp h
    · rename_i hcmp
      have hy := hl y (List.mem_cons_self y ys)
      have hyx : core_updater_list_qsort_func_wizmodl y x ≤ 0 := by
        have hs := cmpWizmodl_antisym_real x y hx1 hx2 hy.1 hy.2
        omega
      have hrest := (List.chain'_cons'.mp h).2
      have hhead := (List.chain'_cons'.mp h).1
      apply List.chain'_cons'.mpr
      constructor
      · intro z hz
        rcases head?_wizInsert x ys with hcase | hcase
        · rw [hcase] at hz
          cases hz
          exact hyx
        · rw [hcase] at hz
          exact hhead z hz
      · exact ih (fun e he => hl e (List.mem_cons_of_mem y he)) hrest

theorem chain'_sortWizmodl (l : List CoreUpdaterListEntry)
    (hl : ∀ e ∈ l, e.is_manufacturer_header = false ∧ e.is_console_header = false) :
    List.Chain' (fun a b => core_updater_list_qsort_func_wizmodl a b ≤ 0) (sortWizmodl l) := by
  induction l with
  | nil => simp [sortWizmodl]
  | cons x t ih =>
    rw [sortWizmodl_cons]
    have hx := hl x (List.mem_cons_self x t)
    apply chain'_wizInsert x (sortWizmodl t) hx.1 hx.2
    · intro e he
      exact hl e (List.mem_cons_of_mem x ((mem_sortWizmodl e t).mp he))
    · exact ih (fun e he => hl e (List.mem_cons_of_mem x he))

theorem sortWizmodl_eq_self_of_chain' (l : List CoreUpdaterListEntry)
    (h : List.Chain' (fun a b => core_updater_list_qsort_func_wizmodl a b ≤ 0) l) :
    sortWizmodl l = l := by
  induction l with
  | nil => rfl
  | cons x t ih =>
    rw [sortWizmodl_cons, ih (List.Chain'.tail h)]
    cases t with
    | nil => rfl
    | cons y ys =>
      have hxy : core_updater_list_qsort_func_wizmodl x y ≤ 0 :=
        (List.chain'_cons.mp h).1
      simp only [wizInsert]
      rw [if_pos hxy]

theorem sortWizmodl_idem (l : List CoreUpdaterListEntry)
    (hl : ∀ e ∈ l, e.is_manufacturer_header = false ∧ e.is_console_header = false) :
    sortWizmodl (sortWizmodl l) = sortWizmodl l :=
  sortWizmodl_eq_self_of_chain' (sortWizmodl l) (chain'_sortWizmodl l hl)

/-! ### Injection-pass infrastructure (exhausted oracle = all allocations succeed) -/

theorem rbufTryfit_nil (cap n : Nat) :
    rbufTryfit cap n [] = (true, (if n ≤ cap then cap else n), []) := by
  simp only [rbufTryfit, allocNext]
  split_ifs <;> rfl

theorem injectPush_nil (cap cnt : Nat) (lM lC : Option (List Char))
    (x : CoreUpdaterListEntry) :
    injectPush ⟨cap, cnt, lM, lC, []⟩ x
      = ([x], ⟨(if cnt + 1 ≤ cap then cap else cnt + 1), cnt + 1, lM, lC, []⟩) := by
  simp [injectPush, rbufTryfit_nil]

theorem createManufacturerHeaderM_nil (cap cnt : Nat) (lM lC : Option (List Char))
    (name : List Char) :
    createManufacturerHeaderM ⟨cap, cnt, lM, lC, []⟩ name
      = ((if string_is_empty name then none
          else some (create_manufacturer_header name)), ⟨cap, cnt, lM, lC, []⟩) := by
  simp only [createManufacturerHeaderM, allocNext]
  split_ifs <;> rfl

theorem createConsoleHeaderM_nil (cap cnt : Nat) (lM lC : Option (List Char))
    (name : List Char) (year : Int) :
    createConsoleHeaderM ⟨cap, cnt, lM, lC, []⟩ name year
      = ((if string_is_empty name then none
          else some (create_console_header name year)), ⟨cap, cnt, lM, lC, []⟩) := by
  simp only [createConsoleHeaderM, allocNext]
  split_ifs <;> rfl

theorem needNewKey_none (key : List Char) : needNewKey none key = true := rfl

theorem injectEntryStep_nil (cap cnt : Nat) (lM lC : Option (List Char))
    (e : CoreUpdaterListEntry) :
    (injectEntryStep ⟨cap, cnt, lM, lC, []⟩ e).1 = pureStepEmit lM lC e
    ∧ (injectEntryStep ⟨cap, cnt, lM, lC, []⟩ e).2.cnt
        = cnt + (pureStepEmit lM lC e).length
    ∧ (injectEntryStep ⟨cap, cnt, lM, lC, []⟩ e).2.lastManufacturer
        = (pureNextKeys lM lC e).1
    ∧ (injectEntryStep ⟨cap, cnt, lM, lC, []⟩ e).2.lastConsoleModel
        = (pureNextKeys lM lC e).2
    ∧ (injectEntryStep ⟨cap, cnt, lM, lC, []⟩ e).2.oracle = [] := by
  by_cases hM : needNewKey lM (get_core_metadata_wizmodl e.display_name).manufacturer
  · by_cases hEM : string_is_empty (get_core_metadata_wizmodl e.display_name).manufacturer
    · by_cases hEC : string_is_empty (get_core_metadata_wizmodl e.display_name).console_model
      · simp [injectEntryStep, pureStepEmit, pureNextKeys, hM, hEM, hEC,
          createManufacturerHeaderM_nil, createConsoleHeaderM_nil,
          injectHeaderPush, injectPush_nil, needNewKey_none]
      · simp [injectEntryStep, pureStepEmit, pureNextKeys, hM, hEM, hEC,
          createManufacturerHeaderM_nil, createConsoleHeaderM_nil,
          injectHeaderPush, injectPush_nil, needNewKey_none]
    · by_cases hEC : string_is_empty (get_core_metadata_wizmodl e.display_name).console_model
      · simp [injectEntryStep, pureStepEmit, pureNextKeys, hM, hEM, hEC,
          createManufacturerHeaderM_nil, createConsoleHeaderM_nil,
          injectHeaderPush, injectPush_nil, needNewKey_none]
      · simp [injectEntryStep, pureStepEmit, pureNextKeys, hM, hEM, hEC,
          createManufacturerHeaderM_nil, createConsoleHeaderM_nil,
          injectHeaderPush, injectPush_nil, needNewKey_none]
  · by_cases hC : needNewKey lC (get_core_metadata_wizmodl e.display_name).console_model
    · by_cases hEC : string_is_empty (get_core_metadata_wizmodl e.display_name).console_model
      · simp [injectEntryStep, pureStepEmit, pureNextKeys, hM, hC, hEC,
          createManufacturerHeaderM_nil, createConsoleHeaderM_nil,
          injectHeaderPush, injectPush_nil, needNewKey_none]
      · simp [injectEntryStep, pureStepEmit, pureNextKeys, hM, hC, hEC,
          createManufacturerHeaderM_nil, createConsoleHeaderM_nil,
          injectHeaderPush, injectPush_nil, needNewKey_none]
    · simp [injectEntryStep, pureStepEmit, pureNextKeys, hM, hC,
        createManufacturerHeaderM_nil, createConsoleHeaderM_nil,
        injectHeaderPush, injectPush_nil, needNewKey_none]

theorem injectLoop_nil (l : List CoreUpdaterListEntry) :
    ∀ (cap cnt : Nat) (lM lC : Option (List Char)),
    (injectLoop ⟨cap, cnt, lM, lC, []⟩ l).1 = pureInterleave lM lC l
    ∧ (injectLoop ⟨cap, cnt, lM, lC, []⟩ l).2.cnt
        = cnt + (pureInterleave lM lC l).length
    ∧ (injectLoop ⟨cap, cnt, lM, lC, []⟩ l).2.oracle = [] := by
  induction l with
  | nil => intro cap cnt lM lC; simp [injectLoop, pureInterleave]
  | cons e rest ih =>
    intro cap cnt lM lC
    by_cases hE : string_is_empty e.display_name
    · simpa [injectLoop, pureInterleave, hE] using ih cap cnt lM lC
    · have hstep := injectEntryStep_nil cap cnt lM lC e
      rcases hs : injectEntryStep ⟨cap, cnt, lM, lC, []⟩ e with ⟨em, cap2, cnt2, lM2, lC2, o2⟩
      rw [hs] at hstep
      obtain ⟨h1, h2, h3, h4, h5⟩ := hstep
      simp only at h1 h2 h3 h4 h5
      subst h1 h2 h3 h4 h5
      have hrest := ih cap2 (cnt + (pureStepEmit lM lC e).length)
        (pureNextKeys lM lC e).1 (pureNextKeys lM lC e).2
      simp only [injectLoop, hE, if_neg, Bool.false_eq_true, ite_false, hs]
      refine ⟨?_, ?_, ?_⟩
      · simp [pureInterleave, hE, hrest.1]
      · simp [pureInterleave, hE, hrest.2.1]
        omega
      · exact hrest.2.2

/-! ### Properties of the built interleaved sequence -/

theorem mfgHeaderText_ne_nil (m : List Char) : mfgHeaderText m ≠ [] := by
  intro h
  have hlen := congrArg List.length h
  have h4 : ("=== ".toList).length = 4 := rfl
  have h4b : (" ===".toList).length = 4 := rfl
  simp only [mfgHeaderText, List.length_append, List.length_nil] at hlen
  omega

theorem consoleHeaderText_ne_nil (m : List Char) (y : Int) :
    consoleHeaderText m y ≠ [] := by
  unfold consoleHeaderText
  split_ifs
  · intro h
    have hlen := congrArg List.length h
    have h4 : ("--- ".toList).length = 4 := rfl
    have h2 : (" (".toList).length = 2 := rfl
    have h5 : (") ---".toList).length = 5 := rfl
    simp only [List.length_append, List.length_nil] at hlen
    omega
  · intro h
    have hlen := congrArg List.length h
    have h4 : ("--- ".toList).length = 4 := rfl
    have h4b : (" ---".toList).length = 4 := rfl
    simp only [List.length_append, List.length_nil] at hlen
    omega

theorem copyEntryWizmodl_eq_self (e : CoreUpdaterListEntry)
    (h1 : e.is_manufacturer_header = false) (h2 : e.is_console_header = false) :
    copyEntryWizmodl e = e := by
  cases e
  simp_all [copyEntryWizmodl]

theorem pureStepEmit_ne_nil (lM lC : Option (List Char)) (e : CoreUpdaterListEntry) :
    pureStepEmit lM lC e ≠ [] := by
  simp only [pureStepEmit]
  intro h
  rcases List.append_eq_nil.mp h with ⟨_, h2⟩
  rcases List.append_eq_nil.mp h2 with ⟨_, h3⟩
  exact List.cons_ne_nil _ _ h3

theorem mem_pureStepEmit_cases (y : CoreUpdaterListEntry) (lM lC : Option (List Char))
    (e : CoreUpdaterListEntry) (hy : y ∈ pureStepEmit lM lC e) :
    y = create_manufacturer_header (get_core_metadata_wizmodl e.display_name).manufacturer
    ∨ y = create_console_header (get_core_metadata_wizmodl e.display_name).console_model
        (get_core_metadata_wizmodl e.display_name).release_year
    ∨ y = copyEntryWizmodl e := by
  simp only [pureStepEmit, List.mem_append] at hy
  rcases hy with hy | hy | hy
  · split_ifs at hy <;> simp at hy
    all_goals tauto
  · split_ifs at hy <;> simp at hy
    all_goals tauto
  · simp at hy
    tauto

theorem stripHeaders_append (a b : List CoreUpdaterListEntry) :
    stripHeaders (a ++ b) = stripHeaders a ++ stripHeaders b := by
  simp [stripHeaders, List.filter_append]

theorem strip_pureStepEmit (lM lC : Option (List Char)) (e : CoreUpdaterListEntry) :
    stripHeaders (pureStepEmit lM lC e) = [copyEntryWizmodl e] := by
  simp only [pureStepEmit]
  rw [stripHeaders_append, stripHeaders_append]
  have hm : ∀ (m : List Char),
      stripHeaders [create_manufacturer_header m] = [] := by
    intro m
    simp [stripHeaders, create_manufacturer_header]
  have hc : ∀ (m : List Char) (y : Int),
      stripHeaders [create_console_header m y] = [] := by
    intro m y
    simp [stripHeaders, create_console_header]
  have hcopy : stripHeaders [copyEntryWizmodl e] = [copyEntryWizmodl e] := by
    simp [stripHeaders, copyEntryWizmodl]
  split_ifs <;> simp_all [stripHeaders]

theorem strip_pureInterleave (l : List CoreUpdaterListEntry) :
    ∀ (lM lC : Option (List Char)),
    (∀ x ∈ l, x.is_manufacturer_header = false ∧ x.is_console_header = false) →
    stripHeaders (pureInterleave lM lC l)
      = l.filter (fun e => !(string_is_empty e.display_name)) := by
  induction l with
  | nil => intro lM lC _; rfl
  | cons e rest ih =>
    intro lM lC hl
    by_cases hE : string_is_empty e.display_name
    · simp only [pureInterleave, hE, ite_true, List.filter_cons, Bool.not_true,
        Bool.false_eq_true, if_true]
      rw [ih lM lC (fun x hx => hl x (List.mem_cons_of_mem e hx))]
      simp [hE]
    · simp only [pureInterleave, hE, Bool.false_eq_true, ite_false]
      rw [stripHeaders_append, strip_pureStepEmit,
        ih (pureNextKeys lM lC e).1 (pureNextKeys lM lC e).2
          (fun x hx => hl x (List.mem_cons_of_mem e hx))]
      have he := hl e (List.mem_cons_self e rest)
      rw [copyEntryWizmodl_eq_self e he.1 he.2]
      simp [List.filter_cons, hE]

theorem pureInterleave_ne_nil (l : List CoreUpdaterListEntry)
    (e : CoreUpdaterListEntry) (he : e ∈ l)
    (hne : string_is_empty e.display_name = false) :
    ∀ (lM lC : Option (List Char)), pureInterleave lM lC l ≠ [] := by
  induction l with
  | nil => cases he
  | cons x rest ih =>
    intro lM lC
    by_cases hx : string_is_empty x.display_name
    · have hmem : e ∈ rest := by
        rcases List.mem_cons.mp he with h | h
        · exfalso
          rw [h] at hne
          rw [hne] at hx
          cases hx
        · exact h
      simp only [pureInterleave, hx, ite_true]
      exact ih hmem lM lC
    · simp only [pureInterleave, hx, Bool.false_eq_true, ite_false]
      intro h
      exact pureStepEmit_ne_nil lM lC x (List.append_eq_nil.mp h).1

theorem mem_pureInterleave_display (l : List CoreUpdaterListEntry) :
    ∀ (lM lC : Option (List Char)) (y : CoreUpdaterListEntry),
    y ∈ pureInterleave lM lC l → y.display_name ≠ [] := by
  induction l with
  | nil => intro lM lC y hy; cases hy
  | cons e rest ih =>
    intro lM lC y hy
    by_cases hE : string_is_empty e.display_name
    · rw [pureInterleave, if_pos hE] at hy
      exact ih lM lC y hy
    · rw [pureInterleave, if_neg hE] at hy
      rcases List.mem_append.mp hy with hy | hy
      · rcases mem_pureStepEmit_cases y lM lC e hy with h | h | h
        · rw [h]
          exact mfgHeaderText_ne_nil _
        · rw [h]
          exact consoleHeaderText_ne_nil _ _
        · rw [h]
          simp only [copyEntryWizmodl]
          simpa [string_is_empty] using hE
      · exact ih _ _ y hy

theorem mem_pureInterleave_crc (l : List CoreUpdaterListEntry) :
    ∀ (lM lC : Option (List Char)) (y : CoreUpdaterListEntry),
    (∀ x ∈ l, x.crc ≠ 0) →
    y ∈ pureInterleave lM lC l →
    (y.is_manufacturer_header || y.is_console_header) = false → y.crc ≠ 0 := by
  induction l with
  | nil => intro lM lC y _ hy; cases hy
  | cons e rest ih =>
    intro lM lC y hl hy hreal
    by_cases hE : string_is_empty e.display_name
    · rw [pureInterleave, if_pos hE] at hy
      exact ih lM lC y (fun x hx => hl x (List.mem_cons_of_mem e hx)) hy hreal
    · rw [pureInterleave, if_neg hE] at hy
      rcases List.mem_append.mp hy with hy | hy
      · rcases mem_pureStepEmit_cases y lM lC e hy with h | h | h
        · rw [h] at hreal
          simp [create_manufacturer_header] at hreal
        · rw [h] at hreal
          simp [create_console_header] at hreal
        · rw [h]
          simpa [copyEntryWizmodl] using hl e (List.mem_cons_self e rest)
      · exact ih _ _ y (fun x hx => hl x (List.mem_cons_of_mem e hx)) hy hreal

/-! ### The injection pass with every allocation succeeding -/

theorem inject_nil_oracle_replace (entries : List CoreUpdaterListEntry)
    (hne : entries ≠ [])
    (hpos : pureInterleave none none entries ≠ []) :
    core_updater_list_inject_dual_headers [] entries
      = (pureInterleave none none entries, listLicenseFrees entries) := by
  simp only [core_updater_list_inject_dual_headers]
  rw [if_neg (by simpa [List.isEmpty_iff] using hne), rbufTryfit_nil]
  have hloop := injectLoop_nil entries
    (if entries.length * 3 ≤ 0 then 0 else entries.length * 3) 0 none none
  simp only
  rw [if_pos trivial]
  have hcnt : 0 < (injectLoop
      ⟨(if entries.length * 3 ≤ 0 then 0 else entries.length * 3), 0, none, none, []⟩
      entries).2.cnt := by
    rw [hloop.2.1]
    have := List.length_pos.mpr hpos
    omega
  rw [if_pos hcnt, hloop.1]

theorem inject_nil_oracle_keep (entries : List CoreUpdaterListEntry)
    (hemp : pureInterleave none none entries = []) :
    (core_updater_list_inject_dual_headers [] entries).1 = entries := by
  by_cases hne : entries = []
  · rw [hne]
    rfl
  · simp only [core_updater_list_inject_dual_headers]
    rw [if_neg (by simpa [List.isEmpty_iff] using hne), rbufTryfit_nil]
    have hloop := injectLoop_nil entries
      (if entries.length * 3 ≤ 0 then 0 else entries.length * 3) 0 none none
    simp only
    rw [if_pos trivial]
    have hcnt : ¬(0 < (injectLoop
        ⟨(if entries.length * 3 ≤ 0 then 0 else entries.length * 3), 0, none, none, []⟩
        entries).2.cnt) := by
      rw [hloop.2.1, hemp]
      simp
    rw [if_neg hcnt]

theorem qsort_wizmodl_of_two_le (entries : List CoreUpdaterListEntry)
    (hlen : 2 ≤ entries.length)
    (hsome : ∃ e ∈ entries, string_is_empty e.display_name = false) :
    core_updater_list_qsort_wizmodl [] entries
      = pureInterleave none none (sortWizmodl entries) := by
  obtain ⟨e, he, hne⟩ := hsome
  rw [core_updater_list_qsort_wizmodl, if_neg (by omega)]
  have hpos : pureInterleave none none (sortWizmodl entries) ≠ [] :=
    pureInterleave_ne_nil (sortWizmodl entries) e
      ((mem_sortWizmodl e entries).mpr he) hne none none
  have hnnil : sortWizmodl entries ≠ [] := by
    intro h
    have := length_sortWizmodl entries
    rw [h] at this
    simp at this
    omega
  rw [inject_nil_oracle_replace (sortWizmodl entries) hnnil hpos]

/-! ### Relating the source comparator to the spec's ordering chain -/

theorem lowerChar_pos (c : Char) (h : c.toNat ≠ 0) : 0 < lowerChar c := by
  unfold lowerChar
  split_ifs
  · omega
  · omega

theorem caseCmpO_sign (x : List Char) : ∀ (y : List Char),
    noNulChars x → noNulChars y →
    Int.sign (strcasecmp x y) = ordToInt (caseCmpO x y) := by
  induction x with
  | nil =>
    intro y hx hy
    cases y with
    | nil => rfl
    | cons b bs =>
      have hb : 0 < lowerChar b := lowerChar_pos b (hy b (List.mem_cons_self b bs))
      have hneg : strcasecmp [] (b :: bs) < 0 := by
        simp only [strcasecmp]
        omega
      rw [Int.sign_eq_neg_one_of_neg hneg]
      rfl
  | cons a as ih =>
    intro y hx hy
    cases y with
    | nil =>
      have ha : 0 < lowerChar a := lowerChar_pos a (hx a (List.mem_cons_self a as))
      have hpos : (0 : Int) < strcasecmp (a :: as) [] := by
        simp only [strcasecmp]
        omega
      rw [Int.sign_eq_one_of_pos hpos]
      rfl
    | cons b bs =>
      by_cases heq : lowerChar a = lowerChar b
      · have h1 : strcasecmp (a :: as) (b :: bs) = strcasecmp as bs := by
          simp [strcasecmp, heq]
        have h2 : caseCmpO (a :: as) (b :: bs) = caseCmpO as bs := by
          simp [caseCmpO, heq, compare_eq_iff_eq.mpr rfl, Ordering.then]
        rw [h1, h2]
        exact ih bs (fun c hc => hx c (List.mem_cons_of_mem a hc))
          (fun c hc => hy c (List.mem_cons_of_mem b hc))
      · have h1 : strcasecmp (a :: as) (b :: bs)
            = (lowerChar a : Int) - (lowerChar b : Int) := by
          simp [strcasecmp, heq]
        rw [h1]
        rcases Nat.lt_trichotomy (lowerChar a) (lowerChar b) with hlt | he | hgt
        · have hc : compare (lowerChar a) (lowerChar b) = Ordering.lt :=
            compare_lt_iff_lt.mpr hlt
          have hneg : (lowerChar a : Int) - (lowerChar b : Int) < 0 := by
            omega
          rw [Int.sign_eq_neg_one_of_neg hneg]
          simp [caseCmpO, hc, Ordering.then, ordToInt]
        · exact absurd he heq
        · have hc : compare (lowerChar a) (lowerChar b) = Ordering.gt :=
            compare_gt_iff_gt.mpr hgt
          have hpos : (0 : Int) < (lowerChar a : Int) - (lowerChar b : Int) := by
            omega
          rw [Int.sign_eq_one_of_pos hpos]
          simp [caseCmpO, hc, Ordering.then, ordToInt]

theorem metaScan_eq_find (d : List Char) (l : List CoreMetadataWizmodl) :
    metaScan d l = (l.find? (fun r =>
      match r.core_name with
      | some pat => strstrB d pat
      | none => false)).getD wizmodlFallback := by
  induction l with
  | nil => rfl
  | cons r rest ih =>
    cases hc : r.core_name with
    | none => simp [metaScan, List.find?_cons, hc, ih]
    | some pat =>
      by_cases hs : strstrB d pat
      · simp [metaScan, List.find?_cons, hc, hs]
      · simp [metaScan, List.find?_cons, hc, hs, ih]

theorem getMeta_eq_spec (d : List Char) (h : d ≠ []) :
    get_core_metadata_wizmodl d = specMetadataLookup d := by
  rw [get_core_metadata_wizmodl,
    if_neg (by simpa [string_is_empty, List.isEmpty_iff] using h)]
  exact metaScan_eq_find d _

theorem metaScan_mem (d : List Char) (l : List CoreMetadataWizmodl) :
    metaScan d l ∈ l ∨ metaScan d l = wizmodlFallback := by
  induction l with
  | nil => right; rfl
  | cons r rest ih =>
    cases hc : r.core_name with
    | none =>
      rcases ih with h | h
      · left
        simp only [metaScan, hc]
        exact List.mem_cons_of_mem r h
      · right
        simpa [metaScan, hc] using h
    | some pat =>
      by_cases hs : strstrB d pat
      · left
        simp [metaScan, hc, hs]
      · rcases ih with h | h
        · left
          simp only [metaScan, hc, hs, Bool.false_eq_true, ite_false]
          exact List.mem_cons_of_mem r h
        · right
          simpa [metaScan, hc, hs] using h

theorem wizmodlFallback_mem_db : wizmodlFallback ∈ core_metadata_wizmodl_db := by
  decide

theorem getMeta_mem_db (d : List Char) :
    get_core_metadata_wizmodl d ∈ core_metadata_wizmodl_db := by
  unfold get_core_metadata_wizmodl
  split_ifs
  · exact wizmodlFallback_mem_db
  · rcases metaScan_mem d core_metadata_wizmodl_db.dropLast with h | h
    · exact List.dropLast_subset _ h
    · rw [h]
      exact wizmodlFallback_mem_db

theorem db_fields_noNul : ∀ r ∈ core_metadata_wizmodl_db,
    noNulChars r.manufacturer ∧ noNulChars r.console_model
      ∧ noNulChars r.console_type := by
  decide

theorem sign_chain_priority (p q : Int) (restL : Int) (restO : Ordering)
    (hrest : p = q → Int.sign restL = ordToInt restO) :
    Int.sign (if p ≠ q then (if p < q then -1 else 1) else restL)
      = ordToInt ((compare p q).then restO) := by
  by_cases h : p = q
  · rw [if_neg (by omega), compare_eq_iff_eq.mpr h]
    exact hrest h
  · rw [if_pos h]
    rcases lt_or_gt_of_ne h with hlt | hgt
    · rw [if_pos hlt, compare_lt_iff_lt.mpr hlt]
      rfl
    · rw [if_neg (by omega), compare_gt_iff_gt.mpr hgt]
      rfl

theorem sign_chain_str (s : Int) (o : Ordering) (hso : Int.sign s = ordToInt o)
    (restL : Int) (restO : Ordering)
    (hrest : s = 0 → Int.sign restL = ordToInt restO) :
    Int.sign (if s ≠ 0 then s else restL) = ordToInt (o.then restO) := by
  by_cases h : s = 0
  · rw [if_neg (by omega)]
    have ho : o = Ordering.eq := by
      rw [h] at hso
      cases o <;> simp [ordToInt] at hso ⊢
    rw [ho]
    exact hrest h
  · rw [if_pos h]
    cases o with
    | eq =>
      exfalso
      simp [ordToInt] at hso
      exact h hso
    | lt => exact hso
    | gt => exact hso

theorem sign_chain_year (p q : Int) (restL : Int) (restO : Ordering)
    (hrest : p = q → Int.sign restL = ordToInt restO) :
    Int.sign (if p - q ≠ 0 then p - q else restL)
      = ordToInt ((compare p q).then restO) := by
  by_cases h : p = q
  · rw [if_neg (by omega), compare_eq_iff_eq.mpr h]
    exact hrest h
  · rcases lt_or_gt_of_ne h with hlt | hgt
    · rw [if_pos (by omega), Int.sign_eq_neg_one_of_neg (by omega),
        compare_lt_iff_lt.mpr hlt]
      rfl
    · rw [if_pos (by omega), Int.sign_eq_one_of_pos (by omega),
        compare_gt_iff_gt.mpr hgt]
      rfl

/-! ### The nonzero-checksum invariant through the parse pipeline -/

theorem set_crc_some_crc_ne (e e2 : CoreUpdaterListEntry) (s : List Char)
    (h : core_updater_list_set_crc e s = some e2) : e2.crc ≠ 0 := by
  simp only [core_updater_list_set_crc] at h
  split_ifs at h with h1 h2
  cases h
  simpa using h2

theorem set_paths_some_crc (env : PathEnv) (e : CoreUpdaterListEntry)
    (a b c d : List Char) (lt : CoreUpdaterListType) (e3 : CoreUpdaterListEntry)
    (h : core_updater_list_set_paths env e a b c d lt = some e3) : e3.crc = e.crc := by
  simp only [core_updater_list_set_paths] at h
  split_ifs at h
  all_goals cases h
  all_goals rfl

theorem set_core_info_some_crc (env : PathEnv) (e : CoreUpdaterListEntry)
    (lip fs : List Char) (nid : Nat) (r : CoreUpdaterListEntry × Nat)
    (h : core_updater_list_set_core_info env e lip fs nid = some r) :
    r.1.crc = e.crc := by
  rcases hl : env.info_lookup lip with _ | info
  all_goals simp only [core_updater_list_set_core_info, hl] at h
  all_goals split_ifs at h
  all_goals cases h
  all_goals rfl

theorem add_entry_crc_invariant (env : PathEnv)
    (acc : List CoreUpdaterListEntry × Nat) (d i u ds cs fs : List Char)
    (hacc : ∀ x ∈ acc.1, x.crc ≠ 0) :
    ∀ x ∈ (core_updater_list_add_entry env acc d i u ds cs fs).1, x.crc ≠ 0 := by
  simp only [core_updater_list_add_entry]
  split_ifs with h1
  · exact hacc
  · rcases hd : core_updater_list_set_date zeroEntry ds with _ | e1
    · simp only [hd]
      exact hacc
    · simp only [hd]
      rcases hc : core_updater_list_set_crc e1 cs with _ | e2
      · simp only [hc]
        exact hacc
      · simp only [hc]
        rcases hp : core_updater_list_set_paths env e2 d i u fs
            CoreUpdaterListType.buildbot with _ | e3
        · simp only [hp]
          exact hacc
        · simp only [hp]
          rcases hi : core_updater_list_set_core_info env e3 e3.local_info_path
              fs acc.2 with _ | r
          · simp only [hi]
            exact hacc
          · simp only [hi]
            intro x hx
            rcases List.mem_append.mp hx with hx | hx
            · exact hacc x hx
            · have hx1 : x = r.1 := by simpa using hx
              rw [hx1, set_core_info_some_crc env e3 _ fs acc.2 r hi,
                set_paths_some_crc env e2 d i u fs CoreUpdaterListType.buildbot e3 hp]
              exact set_crc_some_crc_ne e1 e2 cs hc

theorem foldl_add_entry_crc (env : PathEnv) (d i u : List Char)
    (lines : List (List Char)) :
    ∀ (acc : List CoreUpdaterListEntry × Nat), (∀ x ∈ acc.1, x.crc ≠ 0) →
    ∀ x ∈ (lines.foldl (fun acc line =>
      match firstThreeTokens (strtokSplit ' ' line) with
      | some t =>
        core_updater_list_add_entry env acc d i u t.1 t.2.1 t.2.2
      | none => acc) acc).1, x.crc ≠ 0 := by
  induction lines with
  | nil => intro acc hacc; exact hacc
  | cons line rest ih =>
    intro acc hacc
    simp only [List.foldl_cons]
    rcases ht : firstThreeTokens (strtokSplit ' ' line) with _ | t
    · exact ih acc hacc
    · exact ih _ (add_entry_crc_invariant env acc d i u t.1 t.2.1 t.2.2 hacc)

theorem mem_qsort_wizmodl_crc (l : List CoreUpdaterListEntry)
    (h : ∀ x ∈ l, x.crc ≠ 0) :
    ∀ y ∈ core_updater_list_qsort_wizmodl [] l,
    (y.is_manufacturer_header || y.is_console_header) = false → y.crc ≠ 0 := by
  by_cases hlen : l.length < 2
  · rw [core_updater_list_qsort_wizmodl, if_pos hlen]
    intro y hy _
    exact h y hy
  · rw [core_updater_list_qsort_wizmodl, if_neg hlen]
    by_cases hemp : pureInterleave none none (sortWizmodl l) = []
    · rw [inject_nil_oracle_keep _ hemp]
      intro y hy _
      exact h y ((mem_sortWizmodl y l).mp hy)
    · have hnnil : sortWizmodl l ≠ [] := by
        intro hh
        have hL := length_sortWizmodl l
        rw [hh] at hL
        simp at hL
        omega
      rw [inject_nil_oracle_replace _ hnnil hemp]
      intro y hy hreal
      exact mem_pureInterleave_crc (sortWizmodl l) none none y
        (fun x hx => h x ((mem_sortWizmodl x l).mp hx)) hy hreal

/-! ### Claim theorems -/

/-- C1: the claim states that during header injection the license list of
each real entry is transferred by a single-owner move and that the original
entries are destroyed without freeing the moved field, so that no license
list is ever freed twice.  The code violates this: the rebuilt entry aliases
`licenses_list` (source line 1151) while `core_updater_list_free_entry` is
then run on every original entry (lines 1161-1162), which does free the
aliased `string_list`.  This theorem evaluates the model at a one-entry list
owning licenses allocation 0: the injection pass frees allocation 0 once,
and resetting the resulting list (whose entry still references allocation 0)
frees it again — the same allocation is freed twice. -/
theorem c1_license_list_double_free :
    (core_updater_list_inject_dual_headers [] [eSnesLic]).2
      ++ listLicenseFrees (core_updater_list_inject_dual_headers [] [eSnesLic]).1
      = [0, 0] := by
  decide

/-- C2: for every pair of real (non-header) entries with non-empty (NUL-free)
display names, the sign of the wizmodl comparator equals the spec's ordering
chain — manufacturer_priority, manufacturer (case-insensitive),
console_priority, console_model (case-insensitive), console_type
(case-insensitive), release_year, display_name (case-insensitive) — and each
entry's metadata record is the first table row whose pattern is a substring
of the display name, with the trailing fallback otherwise. -/
theorem c2_grouping_comparator_matches_spec (a b : CoreUpdaterListEntry)
    (ha1 : a.is_manufacturer_header = false) (ha2 : a.is_console_header = false)
    (hb1 : b.is_manufacturer_header = false) (hb2 : b.is_console_header = false)
    (hna : a.display_name ≠ []) (hnb : b.display_name ≠ [])
    (hnua : noNulChars a.display_name) (hnub : noNulChars b.display_name) :
    Int.sign (core_updater_list_qsort_func_wizmodl a b)
      = ordToInt (specGroupingCompare a b)
    ∧ get_core_metadata_wizmodl a.display_name = specMetadataLookup a.display_name
    ∧ get_core_metadata_wizmodl b.display_name = specMetadataLookup b.display_name := by
  refine ⟨?_, getMeta_eq_spec _ hna, getMeta_eq_spec _ hnb⟩
  have hsa : ¬(string_is_empty a.display_name = true) := by
    simpa [string_is_empty, List.isEmpty_iff] using hna
  have hsb : ¬(string_is_empty b.display_name = true) := by
    simpa [string_is_empty, List.isEmpty_iff] using hnb
  have houter : core_updater_list_qsort_func_wizmodl a b = cmpWizmodlReal a b := by
    simp [core_updater_list_qsort_func_wizmodl, ha1, ha2, hb1, hb2]
  rw [houter]
  simp only [cmpWizmodlReal, specGroupingCompare]
  rw [if_neg (by simp [hsa, hsb]),
    ← getMeta_eq_spec a.display_name hna, ← getMeta_eq_spec b.display_name hnb]
  have hma := db_fields_noNul (get_core_metadata_wizmodl a.display_name)
    (getMeta_mem_db a.display_name)
  have hmb := db_fields_noNul (get_core_metadata_wizmodl b.display_name)
    (getMeta_mem_db b.display_name)
  apply sign_chain_priority
  intro h1
  apply sign_chain_str _ _ (caseCmpO_sign _ _ hma.1 hmb.1)
  intro h2
  apply sign_chain_priority
  intro h3
  apply sign_chain_str _ _ (caseCmpO_sign _ _ hma.2.1 hmb.2.1)
  intro h4
  apply sign_chain_str _ _ (caseCmpO_sign _ _ hma.2.2 hmb.2.2)
  intro h5
  apply sign_chain_year
  intro h6
  exact caseCmpO_sign _ _ hnua hnub

/-- Witness for C2 at two concrete real entries (FCEUmm before Snes9x). -/
theorem c2_witness :
    Int.sign (core_updater_list_qsort_func_wizmodl eFceumm eSnes)
      = ordToInt (specGroupingCompare eFceumm eSnes)
    ∧ get_core_metadata_wizmodl eFceumm.display_name
        = specMetadataLookup eFceumm.display_name
    ∧ get_core_metadata_wizmodl eSnes.display_name
        = specMetadataLookup eSnes.display_name :=
  c2_grouping_comparator_matches_spec eFceumm eSnes rfl rfl rfl rfl
    (by decide) (by decide) (by decide) (by decide)

/-- C3 counterexample: with allocation oracle `[true, false, true]` (initial
buffer allocation succeeds, the manufacturer-header malloc fails, the
console-header malloc succeeds), rebuilding the list `[eSnes]` does NOT
discard the partial sequence: the list is replaced by a sequence missing the
manufacturer header — so an allocation failure during the rebuild does not
leave the original list unmodified, contradicting the claim as stated. -/
theorem c3_rebuild_not_all_or_nothing :
    (core_updater_list_inject_dual_headers [true, false, true] [eSnes]).1
      = [create_console_header ("Super Nintendo Entertainment System".toList) 1990,
         eSnes]
    ∧ (core_updater_list_inject_dual_headers [true, false, true] [eSnes]).1
        ≠ [eSnes] := by
  decide

/-- C3 amended: only a failure of the initial allocation of the new backing
storage leaves the list's original entry sequence completely unmodified
(with nothing freed); an allocation failure later in the rebuild instead
drops just the affected header and the partially built sequence still
replaces the original. -/
theorem c3_initial_allocation_failure_amended :
    (∀ (entries : List CoreUpdaterListEntry) (o : List Bool),
      core_updater_list_inject_dual_headers (false :: o) entries = (entries, []))
    ∧ (core_updater_list_inject_dual_headers [true, false, true] [eSnes]).1
        = [create_console_header ("Super Nintendo Entertainment System".toList) 1990,
           eSnes] := by
  constructor
  · intro entries o
    rcases entries with _ | ⟨e, rest⟩
    · rfl
    · simp only [core_updater_list_inject_dual_headers]
      rw [if_neg (by simp)]
      have hfit : rbufTryfit 0 ((e :: rest).length * 3) (false :: o)
          = (false, 0, o) := by
        simp only [rbufTryfit, allocNext]
        rw [if_neg (by simp)]
        rfl
      rw [hfit]
      simp
  · decide

/-- C4 counterexample: parsing empty raw input returns false but leaves a
previously populated list untouched — its entry remains and its type stays
buildbot — contradicting "the list is left reset and empty with its type
equal to unknown" for that fatal failure. -/
theorem c4_empty_input_list_not_reset :
    core_updater_list_parse_network_data env0
        ⟨[eSnes], CoreUpdaterListType.buildbot⟩
        ("/cores".toList) ("/info".toList) ("http://b".toList) []
      = (false, ⟨[eSnes], CoreUpdaterListType.buildbot⟩)
    ∧ ([eSnes] : List CoreUpdaterListEntry) ≠ []
    ∧ CoreUpdaterListType.buildbot ≠ CoreUpdaterListType.unknown := by
  decide

/-- C4 amended: every fatal failure of the build-server parse returns false
and leaves the list either completely untouched (null-list / empty-input
rejection happens before the reset) or reset empty with type unknown
(zero-newline input, zero resulting entries). -/
theorem c4_fatal_failure_amended (env : PathEnv) (st : CoreUpdaterListState)
    (d i u data : List Char)
    (h : (core_updater_list_parse_network_data env st d i u data).1 = false) :
    (core_updater_list_parse_network_data env st d i u data).2 = st
    ∨ (core_updater_list_parse_network_data env st d i u data).2
        = ⟨[], CoreUpdaterListType.unknown⟩ := by
  simp only [core_updater_list_parse_network_data, core_updater_list_reset] at h ⊢
  split_ifs at h ⊢
  · left
    rfl
  · right
    rfl
  · right
    rfl

/-- Witness for C4 at a concrete no-newline input and populated list. -/
theorem c4_witness :
    (core_updater_list_parse_network_data env0
        ⟨[eSnes], CoreUpdaterListType.buildbot⟩
        ("/cores".toList) ("/info".toList) ("http://b".toList)
        ("nonewline".toList)).2
      = (⟨[eSnes], CoreUpdaterListType.buildbot⟩ : CoreUpdaterListState)
    ∨ (core_updater_list_parse_network_data env0
        ⟨[eSnes], CoreUpdaterListType.buildbot⟩
        ("/cores".toList) ("/info".toList) ("http://b".toList)
        ("nonewline".toList)).2
      = (⟨[], CoreUpdaterListType.unknown⟩ : CoreUpdaterListState) :=
  c4_fatal_failure_amended env0 ⟨[eSnes], CoreUpdaterListType.buildbot⟩
    ("/cores".toList) ("/info".toList) ("http://b".toList)
    ("nonewline".toList) (by decide)

/-- C5: a record whose remote filename is already present in the list is
silently dropped by both entry builders (the accumulator is returned
unchanged, no error), and the platform-delivery parse of
`["a_libretro.so", "a_libretro.so"]` succeeds with exactly one entry. -/
theorem c5_duplicate_filenames_dropped :
    (∀ (env : PathEnv) (acc : List CoreUpdaterListEntry × Nat)
        (d i u ds cs fs : List Char),
      (core_updater_list_get_filename acc.1 fs).isSome →
      core_updater_list_add_entry env acc d i u ds cs fs = acc)
    ∧ (∀ (env : PathEnv) (acc : List CoreUpdaterListEntry × Nat)
        (d i fs : List Char),
      (core_updater_list_get_filename acc.1 fs).isSome →
      core_updater_list_add_pfd_entry env acc d i fs = acc)
    ∧ ((core_updater_list_parse_pfd_data env0 ⟨[], CoreUpdaterListType.unknown⟩
          ("/cores".toList) ("/info".toList)
          ["a_libretro.so".toList, "a_libretro.so".toList]).2.entries.length = 1
      ∧ (core_updater_list_parse_pfd_data env0 ⟨[], CoreUpdaterListType.unknown⟩
          ("/cores".toList) ("/info".toList)
          ["a_libretro.so".toList, "a_libretro.so".toList]).1 = true) := by
  refine ⟨?_, ?_, by decide⟩
  · intro env acc d i u ds cs fs h
    simp only [core_updater_list_add_entry]
    rw [if_pos h]
  · intro env acc d i fs h
    simp only [core_updater_list_add_pfd_entry]
    by_cases he : string_is_empty fs
    · rw [if_pos he]
    · rw [if_neg he, if_pos h]

/-- Witness for C5: the duplicate filename of `eSnes` is dropped by both
builders. -/
theorem c5_witness :
    core_updater_list_add_entry env0 ([eSnes], 0) ("/cores".toList)
        ("/info".toList) ("http://b".toList) ("2023-01-15".toList)
        ("deadbeef".toList) ("snes9x_libretro.so".toList) = ([eSnes], 0)
    ∧ core_updater_list_add_pfd_entry env0 ([eSnes], 0) ("/cores".toList)
        ("/info".toList) ("snes9x_libretro.so".toList) = ([eSnes], 0) :=
  ⟨c5_duplicate_filenames_dropped.1 env0 ([eSnes], 0) ("/cores".toList)
      ("/info".toList) ("http://b".toList) ("2023-01-15".toList)
      ("deadbeef".toList) ("snes9x_libretro.so".toList) (by decide),
   c5_duplicate_filenames_dropped.2.1 env0 ([eSnes], 0) ("/cores".toList)
      ("/info".toList) ("snes9x_libretro.so".toList) (by decide)⟩

/-- C6: for every metadata record the console header's display text is
`"--- {console_model} ({year}) ---"`, with the year component omitted
exactly when the record's release year is the sentinel 9999. -/
theorem c6_console_header_year_sentinel (m : CoreMetadataWizmodl)
    (hm : m ∈ core_metadata_wizmodl_db) :
    (create_console_header m.console_model m.release_year).display_name
      = (if m.release_year = 9999
         then "--- ".toList ++ m.console_model ++ " ---".toList
         else "--- ".toList ++ m.console_model ++ " (".toList
              ++ yearChars m.release_year ++ ") ---".toList) :=
  (by decide : ∀ x ∈ core_metadata_wizmodl_db,
    (create_console_header x.console_model x.release_year).display_name
      = (if x.release_year = 9999
         then "--- ".toList ++ x.console_model ++ " ---".toList
         else "--- ".toList ++ x.console_model ++ " (".toList
              ++ yearChars x.release_year ++ ") ---".toList)) m hm

/-- Witness for C6 at the fallback record (year 9999, hence omitted). -/
theorem c6_witness :
    (create_console_header wizmodlFallback.console_model
        wizmodlFallback.release_year).display_name
      = (if wizmodlFallback.release_year = 9999
         then "--- ".toList ++ wizmodlFallback.console_model ++ " ---".toList
         else "--- ".toList ++ wizmodlFallback.console_model ++ " (".toList
              ++ yearChars wizmodlFallback.release_year ++ ") ---".toList) :=
  c6_console_header_year_sentinel wizmodlFallback (by decide)

/-- C7: a buildbot listing record whose checksum field hex-parses to 0
(including parse failure, e.g. "00000000") is dropped — the builder returns
the accumulator unchanged — and consequently every real (non-header) entry
of a successful build-server parse has a nonzero checksum. -/
theorem c7_zero_checksum_dropped :
    (∀ (env : PathEnv) (acc : List CoreUpdaterListEntry × Nat)
        (d i u ds cs fs : List Char),
      string_hex_to_unsigned cs = 0 →
      core_updater_list_add_entry env acc d i u ds cs fs = acc)
    ∧ (∀ (env : PathEnv) (st : CoreUpdaterListState) (d i u data : List Char),
      (core_updater_list_parse_network_data env st d i u data).1 = true →
      ∀ y ∈ (core_updater_list_parse_network_data env st d i u data).2.entries,
      (y.is_manufacturer_header || y.is_console_header) = false → y.crc ≠ 0) := by
  constructor
  · intro env acc d i u ds cs fs hcs
    simp only [core_updater_list_add_entry]
    split_ifs with h1
    · rfl
    · rcases hd : core_updater_list_set_date zeroEntry ds with _ | e1
      · simp [hd]
      · simp only [hd]
        have hnone : core_updater_list_set_crc e1 cs = none := by
          simp only [core_updater_list_set_crc]
          split_ifs <;> rfl
        simp [hnone]
  · intro env st d i u data hsucc y hy hreal
    by_cases h1 : string_is_empty data
    · rw [core_updater_list_parse_network_data, if_pos h1] at hsucc
      simp at hsucc
    · by_cases h2 : countCharOcc '\n' data < 1
      · simp only [core_updater_list_parse_network_data, if_neg h1, if_pos h2] at hsucc
        simp at hsucc
      · simp only [core_updater_list_parse_network_data, if_neg h1, if_neg h2]
          at hsucc hy
        by_cases h3 : ((strtokSplit '\n' data).foldl (fun acc line =>
            match firstThreeTokens (strtokSplit ' ' line) with
            | some t =>
              core_updater_list_add_entry env acc d i u t.1 t.2.1 t.2.2
            | none => acc) (([] : List CoreUpdaterListEntry), 0)).1.length < 1
        · rw [if_pos h3] at hsucc
          simp at hsucc
        · rw [if_neg h3] at hy
          simp only at hy
          refine mem_qsort_wizmodl_crc _ ?_ y hy hreal
          refine foldl_add_entry_crc env d i u (strtokSplit '\n' data)
            (([] : List CoreUpdaterListEntry), 0) ?_
          intro x hx
          cases hx

/-- Witness for C7: the checksum "00000000" drops the record, and the single
entry of a concrete successful parse has a nonzero checksum. -/
theorem c7_witness :
    core_updater_list_add_entry env0 ([], 0) ("/cores".toList) ("/info".toList)
        ("http://b".toList) ("2023-01-15".toList) ("00000000".toList)
        ("a_libretro.so".toList) = ([], 0)
    ∧ (((core_updater_list_parse_network_data env0
          ⟨[], CoreUpdaterListType.unknown⟩ ("/cores".toList) ("/info".toList)
          ("http://b".toList)
          ("2023-01-15 deadbeef snes9x_libretro.so\n".toList)).2.entries.headD
            zeroEntry).crc ≠ 0) :=
  ⟨c7_zero_checksum_dropped.1 env0 ([], 0) ("/cores".toList) ("/info".toList)
      ("http://b".toList) ("2023-01-15".toList) ("00000000".toList)
      ("a_libretro.so".toList) (by decide),
   c7_zero_checksum_dropped.2 env0 ⟨[], CoreUpdaterListType.unknown⟩
      ("/cores".toList) ("/info".toList) ("http://b".toList)
      ("2023-01-15 deadbeef snes9x_libretro.so\n".toList) (by decide)
      ((core_updater_list_parse_network_data env0
          ⟨[], CoreUpdaterListType.unknown⟩ ("/cores".toList) ("/info".toList)
          ("http://b".toList)
          ("2023-01-15 deadbeef snes9x_libretro.so\n".toList)).2.entries.headD
            zeroEntry) (by decide) (by decide)⟩

/-- C8 counterexample: take the list `[eSnes, eBlankName]` (a real entry and
a real entry with empty display name).  Its grouping sort produces a
header-injected list whose only surviving real entry is the copy of `eSnes`;
stripping headers and sorting again hits the `length < 2` early return, so
no headers are re-injected and the sequence differs from the first result —
the Grouping Sort is not idempotent as claimed. -/
theorem c8_not_idempotent :
    core_updater_list_qsort_wizmodl []
        (stripHeaders (core_updater_list_qsort_wizmodl [] [eSnes, eBlankName]))
      ≠ core_updater_list_qsort_wizmodl [] [eSnes, eBlankName] := by
  decide

/-- C8 amended: for a list of real entries all of which have a non-empty
display name, the Grouping Sort is idempotent: stripping the headers from
the sorted-and-injected list and running the Grouping Sort again reproduces
the identical sequence. -/
theorem c8_idempotent_amended (xs : List CoreUpdaterListEntry)
    (hreal : ∀ e ∈ xs, e.is_manufacturer_header = false
      ∧ e.is_console_header = false)
    (hname : ∀ e ∈ xs, string_is_empty e.display_name = false) :
    core_updater_list_qsort_wizmodl []
        (stripHeaders (core_updater_list_qsort_wizmodl [] xs))
      = core_updater_list_qsort_wizmodl [] xs := by
  by_cases hlen : xs.length < 2
  · have h1 : core_updater_list_qsort_wizmodl [] xs = xs := by
      rw [core_updater_list_qsort_wizmodl, if_pos hlen]
    rw [h1]
    have h2 : stripHeaders xs = xs := by
      unfold stripHeaders
      apply List.filter_eq_self.mpr
      intro e he
      simp [(hreal e he).1, (hreal e he).2]
    rw [h2, h1]
  · push_neg at hlen
    have hnil : xs ≠ [] := by
      intro h
      rw [h] at hlen
      simp at hlen
    obtain ⟨e0, he0⟩ := List.exists_mem_of_ne_nil xs hnil
    have hsome : ∃ e ∈ xs, string_is_empty e.display_name = false :=
      ⟨e0, he0, hname e0 he0⟩
    have h1 := qsort_wizmodl_of_two_le xs hlen hsome
    rw [h1]
    have hrealS : ∀ x ∈ sortWizmodl xs, x.is_manufacturer_header = false
        ∧ x.is_console_header = false :=
      fun x hx => hreal x ((mem_sortWizmodl x xs).mp hx)
    rw [strip_pureInterleave (sortWizmodl xs) none none hrealS]
    have hfil : (sortWizmodl xs).filter
        (fun e => !(string_is_empty e.display_name)) = sortWizmodl xs := by
      apply List.filter_eq_self.mpr
      intro x hx
      simp [hname x ((mem_sortWizmodl x xs).mp hx)]
    rw [hfil]
    have hlen2 : 2 ≤ (sortWizmodl xs).length := by
      rw [length_sortWizmodl]
      exact hlen
    have hsome2 : ∃ e ∈ sortWizmodl xs, string_is_empty e.display_name = false :=
      ⟨e0, (mem_sortWizmodl e0 xs).mpr he0, hname e0 he0⟩
    rw [qsort_wizmodl_of_two_le (sortWizmodl xs) hlen2 hsome2,
      sortWizmodl_idem xs hreal]

/-- Witness for C8 at a concrete two-entry list of real, non-blank entries. -/
theorem c8_witness :
    core_updater_list_qsort_wizmodl []
        (stripHeaders (core_updater_list_qsort_wizmodl [] [eSnes, eFceumm]))
      = core_updater_list_qsort_wizmodl [] [eSnes, eFceumm] :=
  c8_idempotent_amended [eSnes, eFceumm] (by decide) (by decide)

/-- C9 counterexample: on a two-entry list whose entries all have empty
display names, the injection pass builds nothing, keeps the original
entries, and the blank-named entries survive the Grouping Sort — so header
injection does not remove every empty-display-name entry as claimed. -/
theorem c9_blank_entries_survive :
    eBlankName ∈ core_updater_list_qsort_wizmodl [] [eBlankName, eBlankName2]
    ∧ eBlankName.display_name = []
    ∧ 2 ≤ ([eBlankName, eBlankName2] : List CoreUpdaterListEntry).length := by
  decide

/-- C9 amended: provided at least one entry has a non-empty display name (so
the rebuilt sequence is non-empty and replaces the list), a Grouping Sort
that performs header injection (list length at least 2) leaves no entry with
an empty display name. -/
theorem c9_blank_removed_amended (xs : List CoreUpdaterListEntry)
    (hlen : 2 ≤ xs.length)
    (hsome : ∃ e ∈ xs, string_is_empty e.display_name = false) :
    ∀ y ∈ core_updater_list_qsort_wizmodl [] xs, y.display_name ≠ [] := by
  rw [qsort_wizmodl_of_two_le xs hlen hsome]
  exact fun y hy => mem_pureInterleave_display (sortWizmodl xs) none none y hy

/-- Witness for C9 at a concrete two-entry list. -/
theorem c9_witness :
    ((core_updater_list_qsort_wizmodl [] [eSnes, eFceumm]).headD
        zeroEntry).display_name ≠ [] :=
  c9_blank_removed_amended [eSnes, eFceumm] (by decide) (by decide)
    ((core_updater_list_qsort_wizmodl [] [eSnes, eFceumm]).headD zeroEntry)
    (by decide)

/-- C10: synthetic headers store their display text in `remote_filename`
(both creators copy the same text into both fields), and the lookup by
remote filename does not exclude headers: any list containing an entry whose
non-empty remote filename equals its display text — as every created header
does — yields a successful lookup (not not-found) whose result carries that
very text as its remote filename. -/
theorem c10_header_lookup (entries : List CoreUpdaterListEntry)
    (h : CoreUpdaterListEntry) (hmem : h ∈ entries)
    (heq : h.remote_filename = h.display_name) (hne : h.display_name ≠ [])
    (m : List Char) (y : Int) :
    (create_manufacturer_header m).remote_filename
        = (create_manufacturer_header m).display_name
    ∧ (create_console_header m y).remote_filename
        = (create_console_header m y).display_name
    ∧ core_updater_list_get_filename entries h.display_name ≠ none
    ∧ ((core_updater_list_get_filename entries h.display_name).getD
        zeroEntry).remote_filename = h.display_name := by
  have hpred : (!string_is_empty h.remote_filename
      && h.remote_filename == h.display_name) = true := by
    rw [heq]
    simp [string_is_empty, List.isEmpty_iff, hne]
  have hsome : (entries.find? (fun e => !string_is_empty e.remote_filename
      && e.remote_filename == h.display_name)).isSome := by
    rw [List.find?_isSome]
    exact ⟨h, hmem, hpred⟩
  have hq : ¬(string_is_empty h.display_name = true) := by
    simpa [string_is_empty, List.isEmpty_iff] using hne
  refine ⟨rfl, rfl, ?_, ?_⟩
  · rw [core_updater_list_get_filename, if_neg hq]
    intro hcontra
    rw [hcontra] at hsome
    cases hsome
  · rw [core_updater_list_get_filename, if_neg hq]
    rcases ho : entries.find? (fun e => !string_is_empty e.remote_filename
        && e.remote_filename == h.display_name) with _ | e
    · rw [ho] at hsome
      cases hsome
    · have hp := List.find?_some ho
      simp only [Bool.and_eq_true, beq_iff_eq] at hp
      simp [ho, hp.2]

/-- Witness for C10: looking up "=== Nintendo ===" in a list holding that
manufacturer header returns an entry carrying that text. -/
theorem c10_witness :
    (create_manufacturer_header ("Nintendo 64".toList)).remote_filename
        = (create_manufacturer_header ("Nintendo 64".toList)).display_name
    ∧ (create_console_header ("Nintendo 64".toList) 1996).remote_filename
        = (create_console_header ("Nintendo 64".toList) 1996).display_name
    ∧ core_updater_list_get_filename
        [create_manufacturer_header ("Nintendo".toList), eSnes]
        (create_manufacturer_header ("Nintendo".toList)).display_name ≠ none
    ∧ ((core_updater_list_get_filename
        [create_manufacturer_header ("Nintendo".toList), eSnes]
        (create_manufacturer_header ("Nintendo".toList)).display_name).getD
          zeroEntry).remote_filename
        = (create_manufacturer_header ("Nintendo".toList)).display_name :=
  c10_header_lookup [create_manufacturer_header ("Nintendo".toList), eSnes]
    (create_manufacturer_header ("Nintendo".toList))
    (by decide) (by decide) (by decide) ("Nintendo 64".toList) 1996
